import Mathlib

/-!
Verification development for the pcap-ai-analyzer repository.

Shallow embedding of the two core source files:
  * `sanitize_pcap.py`   — class `PCAPSanitizer` (identity anonymization of
    IPs / MACs / domains, per-packet sanitization with a per-packet
    `try/except`).
  * `prepare_for_ai_analysis.py` — class `PCAPAnalysisPrep` (per-packet
    traffic classification, error detection, aggregation and export).

Conventions of the embedding:
  * Python `dict` / `collections.Counter` / `defaultdict` values are modelled
    as insertion-ordered association lists `List (K × V)`; counter increment
    and keyed update preserve insertion order exactly as CPython dicts do.
  * Python `set` is modelled as a duplicate-free `List` with
    insert-if-absent.
  * `hashlib.sha256` is implemented in full (FIPS 180-4) over byte lists;
    input strings in every claim are ASCII, so UTF-8 encoding of a string is
    its list of code points.
  * Packet capture timestamps are modelled as exact naturals; no claim
    depends on float rounding.
  * A packet whose layer decoding would raise inside the analysis functions
    is marked with a `decodeFault` flag; the embedded fallible functions
    return `Except Unit _` exactly where the Python code can raise.
-/

set_option maxRecDepth 200000

namespace PcapAI

/-! ## Generic helpers: ordered association lists (Python dict / Counter / set) -/

variable {K V : Type} [DecidableEq K]

/-- Association-list lookup (first match), mirroring Python `dict.get`. -/
def alookup (l : List (K × V)) (k : K) : Option V :=
  match l with
  | [] => none
  | (k', v) :: t => if k' = k then some v else alookup t k

/-- Lookup with default, mirroring `defaultdict` read access. -/
def alookupD (l : List (K × V)) (k : K) (d : V) : V :=
  (alookup l k).getD d

/-- Keyed update: replace in place if the key exists, else append at the end
(CPython dict insertion-order semantics). -/
def aset (l : List (K × V)) (k : K) (v : V) : List (K × V) :=
  match l with
  | [] => [(k, v)]
  | (k', v') :: t => if k' = k then (k, v) :: t else (k', v') :: aset t k v

/-- Counter increment: `counter[k] += 1` (missing key counts as 0, new keys
are appended at the end). -/
def cincr (l : List (K × Nat)) (k : K) : List (K × Nat) :=
  match l with
  | [] => [(k, 1)]
  | (k', n) :: t => if k' = k then (k, n + 1) :: t else (k', n) :: cincr t k

/-- Build a Counter from a list of keys (used for the per-conversation flag
histogram). -/
def countList (l : List K) : List (K × Nat) :=
  l.foldl cincr []

/-- `set.add`: insert if absent (Python set add is idempotent). -/
def sadd (l : List K) (k : K) : List K :=
  if k ∈ l then l else l ++ [k]

/-- Stable insertion of one element into a descending-by-measure list:
the element goes before the first strictly-smaller entry, after all
greater-or-equal ones seen so far (matching the stability of Python
`sorted(..., reverse=True)`). -/
def insertDescBy (f : V → Nat) (x : V) : List V → List V
  | [] => [x]
  | y :: ys => if f y < f x then x :: y :: ys else y :: insertDescBy f x ys

/-- Stable sort, descending by a natural-number measure
(Python `sorted(items, key=..., reverse=True)` / `Counter.most_common`). -/
def sortDescBy (f : V → Nat) : List V → List V
  | [] => []
  | x :: xs => insertDescBy f x (sortDescBy f xs)

/-- `Counter.most_common(n)`: sort descending by count (stable), take `n`. -/
def mostCommon (n : Nat) (l : List (K × Nat)) : List (K × Nat) :=
  (sortDescBy (fun kv => kv.2) l).take n

/-- `Counter.most_common()` with no bound: all entries, descending by count. -/
def mostCommonAll (l : List (K × Nat)) : List (K × Nat) :=
  sortDescBy (fun kv => kv.2) l

theorem length_insertDescBy (f : V → Nat) (x : V) (l : List V) :
    (insertDescBy f x l).length = l.length + 1 := by
  induction l with
  | nil => rfl
  | cons y ys ih =>
    simp only [insertDescBy]
    split <;> simp [ih]

theorem length_sortDescBy (f : V → Nat) (l : List V) :
    (sortDescBy f l).length = l.length := by
  induction l with
  | nil => rfl
  | cons x xs ih => simp [sortDescBy, length_insertDescBy, ih]

/-! ## Generic helpers: strings -/

/-- Boolean list-initial-segment test (used by the substring scanner). -/
def pfxOf {α : Type} [DecidableEq α] : List α → List α → Bool
  | [], _ => true
  | _ :: _, [] => false
  | a :: as1, b :: bs => a = b && pfxOf as1 bs

/-- Substring test on character lists. -/
def lsub {α : Type} [DecidableEq α] (needle : List α) : List α → Bool
  | [] => pfxOf needle []
  | c :: t => pfxOf needle (c :: t) || lsub needle t

/-- Python `needle in haystack` on strings. -/
def strContains (haystack needle : String) : Bool :=
  lsub needle.data haystack.data

/-- Python `s[a:b]` slice on a string (for the hex-digest slices). -/
def strSlice (s : String) (a b : Nat) : String :=
  ⟨(s.data.drop a).take (b - a)⟩

/-- Python `s[:n]`. -/
def strTake (s : String) (n : Nat) : String :=
  ⟨s.data.take n⟩

/-- Python `s.rstrip('.')`: remove all trailing dots. -/
def rstripDot (s : String) : String :=
  ⟨(s.data.reverse.dropWhile (fun c => c = '.')).reverse⟩

/-- Split on a nonempty separator, left to right, non-overlapping, keeping
empty pieces (the shared semantics of Python `str.split(sep)` and Lean
`String.splitOn` for nonempty separators). Fuel-based structural recursion
so the kernel can evaluate it; each step consumes one character, so fuel
`cs.length` suffices. -/
def splitOnAuxL (sep : List Char) (fuel : Nat) (acc : List Char)
    (cs : List Char) : List (List Char) :=
  match fuel with
  | 0 => [acc.reverse ++ cs]
  | fuel + 1 =>
    match cs with
    | [] => [acc.reverse]
    | c :: t =>
      if pfxOf sep (c :: t) then
        acc.reverse :: splitOnAuxL sep fuel [] ((c :: t).drop sep.length)
      else splitOnAuxL sep fuel (c :: acc) t

/-- Python `s.split(sep)` for a nonempty separator. -/
def strSplitOn (s sep : String) : List String :=
  (splitOnAuxL sep.data s.data.length [] s.data).map (fun l => ⟨l⟩)

/-- Decimal digit test (ASCII). -/
def isDigitCh (c : Char) : Bool :=
  '0' ≤ c && c ≤ '9'

/-- Value of a decimal digit string (caller guarantees digits only). -/
def decVal (cs : List Char) : Nat :=
  cs.foldl (fun a c => a * 10 + (c.toNat - '0'.toNat)) 0

/-- Python `int(s)` restricted to canonical digit strings (`none` when the
string is not all digits), total stand-in for `int()` at call sites that are
only reached with digit strings. -/
def strToNatQ (s : String) : Option Nat :=
  if s.data ≠ [] ∧ s.data.all isDigitCh then some (decVal s.data) else none

/-- Hex digit test (ASCII, both cases). -/
def isHexCh (c : Char) : Bool :=
  isDigitCh c || ('a' ≤ c && c ≤ 'f') || ('A' ≤ c && c ≤ 'F')

/-- Value of one hex digit. -/
def hexDigitVal (c : Char) : Nat :=
  if isDigitCh c then c.toNat - '0'.toNat
  else if 'a' ≤ c && c ≤ 'f' then c.toNat - 'a'.toNat + 10
  else if 'A' ≤ c && c ≤ 'F' then c.toNat - 'A'.toNat + 10
  else 0

/-- Python `int(s, 16)` on a hex-digit string. -/
def hexVal (s : String) : Nat :=
  s.data.foldl (fun a c => a * 16 + hexDigitVal c) 0

/-! ## SHA-256 (hashlib.sha256), FIPS 180-4, executable over byte lists -/

/-- 2^32. -/
def w32 : Nat := 4294967296

/-- 32-bit right rotation. -/
def rotr (n x : Nat) : Nat :=
  ((x >>> n) ||| (x <<< (32 - n))) % w32

def bigSigma0 (x : Nat) : Nat := (rotr 2 x) ^^^ (rotr 13 x) ^^^ (rotr 22 x)
def bigSigma1 (x : Nat) : Nat := (rotr 6 x) ^^^ (rotr 11 x) ^^^ (rotr 25 x)
def smallSigma0 (x : Nat) : Nat := (rotr 7 x) ^^^ (rotr 18 x) ^^^ (x >>> 3)
def smallSigma1 (x : Nat) : Nat := (rotr 17 x) ^^^ (rotr 19 x) ^^^ (x >>> 10)

/-- Ch(x,y,z) with ¬x as xor against 32 one-bits. -/
def chF (x y z : Nat) : Nat := (x &&& y) ^^^ ((x ^^^ (w32 - 1)) &&& z)

def majF (x y z : Nat) : Nat := (x &&& y) ^^^ (x &&& z) ^^^ (y &&& z)

/-- The 64 SHA-256 round constants (decimal). -/
def K256 : List Nat :=
  [1116352408, 1899447441, 3049323471, 3921009573, 961987163, 1508970993,
   2453635748, 2870763221, 3624381080, 310598401, 607225278, 1426881987,
   1925078388, 2162078206, 2614888103, 3248222580, 3835390401, 4022224774,
   264347078, 604807628, 770255983, 1249150122, 1555081692, 1996064986,
   2554220882, 2821834349, 2952996808, 3210313671, 3336571891, 3584528711,
   113926993, 338241895, 666307205, 773529912, 1294757372, 1396182291,
   1695183700, 1986661051, 2177026350, 2456956037, 2730485921, 2820302411,
   3259730800, 3345764771, 3516065817, 3600352804, 4094571909, 275423344,
   430227734, 506948616, 659060556, 883997877, 958139571, 1322822218,
   1537002063, 1747873779, 1955562222, 2024104815, 2227730452, 2361852424,
   2428436474, 2756734187, 3204031479, 3329325298]

/-- Working state (a,b,c,d,e,f,g,h). -/
structure Hash8 where
  a : Nat
  b : Nat
  c : Nat
  d : Nat
  e : Nat
  f : Nat
  g : Nat
  hh : Nat
deriving DecidableEq

/-- Big-endian byte serialization of a natural into `k` bytes. -/
def natToBytesBE (k n : Nat) : List Nat :=
  (List.range k).map (fun i => (n >>> (8 * (k - 1 - i))) % 256)

/-- Pad a byte message per FIPS 180-4 (0x80, zeros, 64-bit bit length). -/
def padMessage (m : List Nat) : List Nat :=
  let L := m.length
  let z := (120 - ((L + 1) % 64)) % 64
  m ++ [128] ++ List.replicate z 0 ++ natToBytesBE 8 (8 * L)

/-- Split a list into chunks of size `n + 1` (fuel-based structural recursion
so that the kernel can evaluate it; fuel `l.length` always suffices since each
step consumes at least one element). -/
def chunksAux {α : Type} (n : Nat) : Nat → List α → List (List α)
  | 0, _ => []
  | _, [] => []
  | fuel + 1, a :: rest =>
    ((a :: rest).take (n + 1)) :: chunksAux n fuel ((a :: rest).drop (n + 1))

/-- Split a list into chunks of size `n + 1`. -/
def chunksSucc {α : Type} (n : Nat) (l : List α) : List (List α) :=
  chunksAux n l.length l

/-- Assemble one 32-bit word from 4 big-endian bytes. -/
def bytesToWord : List Nat → Nat
  | [a, b, c, d] => ((a * 256 + b) * 256 + c) * 256 + d
  | _ => 0

/-- Extend the 16 message words to the 64-entry schedule. -/
def extendSchedule (w : List Nat) : List Nat :=
  (List.range 48).foldl
    (fun acc _ =>
      let t := acc.length
      let x := (smallSigma1 (acc.getD (t - 2) 0) + acc.getD (t - 7) 0 +
                smallSigma0 (acc.getD (t - 15) 0) + acc.getD (t - 16) 0) % w32
      acc ++ [x]) w

/-- One compression round. -/
def sha256Round (st : Hash8) (kw : Nat × Nat) : Hash8 :=
  let t1 := (st.hh + bigSigma1 st.e + chF st.e st.f st.g + kw.1 + kw.2) % w32
  let t2 := (bigSigma0 st.a + majF st.a st.b st.c) % w32
  ⟨(t1 + t2) % w32, st.a, st.b, st.c, (st.d + t1) % w32, st.e, st.f, st.g⟩

/-- Process one 64-byte block. -/
def processBlock (h : Hash8) (block : List Nat) : Hash8 :=
  let ws := extendSchedule ((chunksSucc 3 block).map bytesToWord)
  let s := (List.zip K256 ws).foldl sha256Round h
  ⟨(h.a + s.a) % w32, (h.b + s.b) % w32, (h.c + s.c) % w32, (h.d + s.d) % w32,
   (h.e + s.e) % w32, (h.f + s.f) % w32, (h.g + s.g) % w32, (h.hh + s.hh) % w32⟩

/-- SHA-256 initial hash value (decimal). -/
def sha256Init : Hash8 :=
  ⟨1779033703, 3144134277, 1013904242, 2773480762,
   1359893119, 2600822924, 528734635, 1541459225⟩

/-- SHA-256 digest (32 bytes) of a byte message. -/
def sha256Bytes (m : List Nat) : List Nat :=
  let fin := (chunksSucc 63 (padMessage m)).foldl processBlock sha256Init
  natToBytesBE 4 fin.a ++ natToBytesBE 4 fin.b ++ natToBytesBE 4 fin.c ++
  natToBytesBE 4 fin.d ++ natToBytesBE 4 fin.e ++ natToBytesBE 4 fin.f ++
  natToBytesBE 4 fin.g ++ natToBytesBE 4 fin.hh

def hexDigitsTable : List Char := "0123456789abcdef".data

def byteToHex (b : Nat) : List Char :=
  [hexDigitsTable.getD (b / 16) '0', hexDigitsTable.getD (b % 16) '0']

def bytesToHexStr (bs : List Nat) : String :=
  ⟨bs.foldr (fun b acc => byteToHex b ++ acc) []⟩

/-- UTF-8 bytes of an ASCII string (all strings hashed in this repository
are ASCII, where UTF-8 bytes coincide with code points). -/
def strBytes (s : String) : List Nat :=
  s.data.map Char.toNat

/-- `hashlib.sha256(value.encode()).hexdigest()`. -/
def sha256Hex (s : String) : String :=
  bytesToHexStr (sha256Bytes (strBytes s))

/-! ## IP address parsing (`ipaddress.ip_address`) -/

/-- One dotted-quad octet, as accepted by Python's `ipaddress`: 1–3 decimal
digits, no leading zero (unless the octet is exactly "0"), value ≤ 255. -/
def parseOctet (s : String) : Option Nat :=
  let cs := s.data
  if cs.isEmpty ∨ 3 < cs.length ∨ ¬(cs.all isDigitCh) then none
  else if cs.length ≠ 1 ∧ cs.headD '0' = '0' then none
  else
    let v := decVal cs
    if v ≤ 255 then some v else none

/-- An IP address value: four IPv4 octets, or eight 16-bit IPv6 groups. -/
inductive IPAddr where
  | v4 (a b c d : Nat)
  | v6 (groups : List Nat)
deriving DecidableEq

/-- `ipaddress.IPv4Address(s)`. -/
def parseIPv4 (s : String) : Option IPAddr :=
  match strSplitOn s "." with
  | [s1, s2, s3, s4] =>
    match parseOctet s1, parseOctet s2, parseOctet s3, parseOctet s4 with
    | some a, some b, some c, some d => some (.v4 a b c d)
    | _, _, _, _ => none
  | _ => none

/-- One IPv6 group: 1–4 hex digits. -/
def parseHexGroup (s : String) : Option Nat :=
  let cs := s.data
  if cs.isEmpty ∨ 4 < cs.length ∨ ¬(cs.all isHexCh) then none
  else some (hexVal s)

def parseGroups (l : List String) : Option (List Nat) :=
  l.mapM parseHexGroup

/-- `ipaddress.IPv6Address(s)`: eight groups, or one `::` compression.
Embedded IPv4 tails (`::ffff:1.2.3.4`) and zone ids are not modelled; no
claim's verdict depends on those textual forms. -/
def parseIPv6 (s : String) : Option IPAddr :=
  if ¬ s.data.contains ':' then none
  else
    match strSplitOn s "::" with
    | [whole] =>
      match parseGroups (strSplitOn whole ":") with
      | some gs => if gs.length = 8 then some (.v6 gs) else none
      | none => none
    | [lft, rgt] =>
      let lg := if lft = "" then some [] else parseGroups (strSplitOn lft ":")
      let rg := if rgt = "" then some [] else parseGroups (strSplitOn rgt ":")
      match lg, rg with
      | some a, some b =>
        if a.length + b.length ≤ 7 then
          some (.v6 (a ++ List.replicate (8 - a.length - b.length) 0 ++ b))
        else none
      | _, _ => none
    | _ => none

/-- `ipaddress.ip_address(s)`: IPv4 first, then IPv6, else `ValueError`
(modelled as `none`). -/
def parseIP (s : String) : Option IPAddr :=
  match parseIPv4 s with
  | some a => some a
  | none => parseIPv6 s

/-- Python `IPv4Address.is_private` (the `_private_networks` list). -/
def isPrivateV4 (a b c d : Nat) : Bool :=
  a = 0 ∨ a = 10 ∨ a = 127 ∨ (a = 169 ∧ b = 254) ∨ (a = 172 ∧ 16 ≤ b ∧ b ≤ 31) ∨
  (a = 192 ∧ b = 0 ∧ c = 0 ∧ d ≤ 7) ∨ (a = 192 ∧ b = 0 ∧ c = 0 ∧ (d = 170 ∨ d = 171)) ∨
  (a = 192 ∧ b = 0 ∧ c = 2) ∨ (a = 192 ∧ b = 168) ∨ (a = 198 ∧ (b = 18 ∨ b = 19)) ∨
  (a = 198 ∧ b = 51 ∧ c = 100) ∨ (a = 203 ∧ b = 0 ∧ c = 113) ∨ 240 ≤ a

/-- Python `IPv6Address.is_private` (the `_private_networks` list:
`::1`, `::`, `::ffff:0:0/96`, `100::/64`, `2001::/23`, `2001:db8::/32`,
`2001:10::/28`, `fc00::/7`, `fe80::/10`). -/
def isPrivateV6 (g : List Nat) : Bool :=
  let g0 := g.getD 0 0
  let g1 := g.getD 1 0
  (g.take 7 = List.replicate 7 0 ∧ g.getD 7 0 ≤ 1) ∨
  (g0 = 0 ∧ g1 = 0 ∧ g.getD 2 0 = 0 ∧ g.getD 3 0 = 0 ∧ g.getD 4 0 = 0 ∧
    g.getD 5 0 = 65535) ∨
  (g0 = 256 ∧ g1 = 0 ∧ g.getD 2 0 = 0 ∧ g.getD 3 0 = 0) ∨
  (g0 = 8193 ∧ g1 < 512) ∨
  (g0 = 8193 ∧ g1 = 3512) ∨
  (g0 = 8193 ∧ 16 ≤ g1 ∧ g1 ≤ 31) ∨
  (64512 ≤ g0 ∧ g0 ≤ 65023) ∨
  (65152 ≤ g0 ∧ g0 ≤ 65215)

def isPrivate : IPAddr → Bool
  | .v4 a b c d => isPrivateV4 a b c d
  | .v6 g => isPrivateV6 g

def isV4 : IPAddr → Bool
  | .v4 _ _ _ _ => true
  | .v6 _ => false

/-! ## The sanitizer (`sanitize_pcap.py`, class `PCAPSanitizer`) -/

/-- The sanitizer's run state: the three identity maps, the
preserve-private-IPs flag and the statistics counters. -/
structure SanState where
  ipMap : List (String × String)
  macMap : List (String × String)
  domainMap : List (String × String)
  preserveInternalIps : Bool
  totalPackets : Nat
  ipAnonymized : Nat
  macAnonymized : Nat
  dnsSanitized : Nat
  httpSanitized : Nat
  tlsSanitized : Nat
  sensitiveDataRemoved : Nat
deriving DecidableEq

/-- `PCAPSanitizer.__init__`. -/
def initSan (preserve : Bool) : SanState :=
  ⟨[], [], [], preserve, 0, 0, 0, 0, 0, 0, 0⟩

/-- `_hash_value`: prefix argument plus the first 16 hex characters of the
sha256 digest of the value. -/
def hashValue (value : String) (pfx : String) : String :=
  pfx ++ strTake (sha256Hex value) 16

/-- `anonymize_ip`. The first assignment of the `octets[0] == '10'` branch in
the source is dead code (immediately overwritten); only the effective second
assignment is modelled. `int(octets[1])` cannot fail once parsing succeeded;
it is modelled totally via `toNat?.getD 0`. -/
def anonymize_ip (st : SanState) (ip_str : String) : String × SanState :=
  match alookup st.ipMap ip_str with
  | some v => (v, st)
  | none =>
    match parseIP ip_str with
    | none => (ip_str, st)
    | some ipObj =>
      let hv := hashValue ip_str ""
      let anon_ip :=
        if isPrivate ipObj ∧ st.preserveInternalIps then
          match ipObj with
          | .v4 _ _ _ _ =>
            let octets := strSplitOn ip_str "."
            let o0 := octets.getD 0 ""
            let o1 := octets.getD 1 ""
            if o0 = "10" then
              "10." ++ toString (hexVal (strSlice hv 0 2) % 256) ++ "." ++
                toString (hexVal (strSlice hv 2 4) % 256) ++ "." ++
                toString (hexVal (strSlice hv 4 6) % 256)
            else if o0 = "172" ∧ 16 ≤ (strToNatQ o1).getD 0 ∧ (strToNatQ o1).getD 0 ≤ 31 then
              "172." ++ toString (16 + hexVal (strSlice hv 0 2) % 16) ++ "." ++
                toString (hexVal (strSlice hv 2 4) % 256) ++ "." ++
                toString (hexVal (strSlice hv 4 6) % 256)
            else if o0 = "192" ∧ o1 = "168" then
              "192.168." ++ toString (hexVal (strSlice hv 0 2) % 256) ++ "." ++
                toString (hexVal (strSlice hv 2 4) % 256)
            else
              "10." ++ toString (hexVal (strSlice hv 0 2) % 256) ++ "." ++
                toString (hexVal (strSlice hv 2 4) % 256) ++ "." ++
                toString (hexVal (strSlice hv 4 6) % 256)
          | .v6 _ => "fd00::" ++ strTake hv 8
        else
          match ipObj with
          | .v4 _ _ _ _ => "203.0.113." ++ toString (hexVal (strSlice hv 0 2) % 256)
          | .v6 _ => "2001:db8::" ++ strTake hv 8
      (anon_ip, { st with ipMap := st.ipMap ++ [(ip_str, anon_ip)] })

/-- `anonymize_mac`. -/
def anonymize_mac (st : SanState) (mac : String) : String × SanState :=
  match alookup st.macMap mac with
  | some v => (v, st)
  | none =>
    let hp := strTake (hashValue mac "") 6
    let anon := "00:00:00:" ++ strSlice hp 0 2 ++ ":" ++ strSlice hp 2 4 ++ ":" ++
      strSlice hp 4 6
    (anon, { st with macMap := st.macMap ++ [(mac, anon)] })

/-- `anonymize_domain`. -/
def anonymize_domain (st : SanState) (domain : String) : String × SanState :=
  match alookup st.domainMap domain with
  | some v => (v, st)
  | none =>
    let parts := strSplitOn domain "."
    let anon :=
      if 2 ≤ parts.length then
        "anon-" ++ strTake (hashValue domain "") 12 ++ "." ++ parts.getLastD ""
      else
        "anon-" ++ strTake (hashValue domain "") 12 ++ ".local"
    (anon, { st with domainMap := st.domainMap ++ [(domain, anon)] })

/-! ## The packet model shared by both stages -/

structure TCPInfo where
  sport : Nat
  dport : Nat
  flagS : Bool
  flagA : Bool
  flagF : Bool
  flagR : Bool
  flagP : Bool
  /-- scapy's `str(tcp.flags)` rendering, appended to conversation flag lists. -/
  flagsRepr : String
  seq : Nat
  ack : Nat
deriving DecidableEq

structure UDPInfo where
  sport : Nat
  dport : Nat
deriving DecidableEq

structure ICMPInfo where
  icmpType : Nat
  icmpCode : Nat
deriving DecidableEq

structure DNSInfo where
  /-- 0 = query, 1 = response. -/
  qr : Nat
  /-- the decoded query name of `dns.qd.qname` (with its on-the-wire trailing
  dot), when a question record is present. -/
  qd : Option String
  rcode : Nat
  /-- decoded textual `rdata` of the answer records (empty string = falsy
  record, skipped by the sanitizer). -/
  an : List String
deriving DecidableEq

/-- A decoded capture record. Checksums are not modelled (the sanitizer only
deletes them). `decodeFault` marks a packet whose layer handling raises
inside the per-packet functions. -/
structure Packet where
  time : Nat
  len : Nat
  ether : Option (String × String)
  ip : Option (String × String)
  ipv6 : Option (String × String)
  tcp : Option TCPInfo
  udp : Option UDPInfo
  icmp : Option ICMPInfo
  dns : Option DNSInfo
  raw : Option String
  tls : Bool
  tlsClientHello : Bool
  decodeFault : Bool
deriving DecidableEq

/-! ## Per-packet sanitization -/

/-- One DNS answer record inside `sanitize_dns`: decoded, rstripped of dots;
rewritten only when it contains a dot and does not start with a digit.
An empty decoded string would raise `IndexError` at `rdata_str[0]`, which the
inner `except: pass` swallows. -/
def sanAnswer (st : SanState) (r : String) : SanState × String :=
  if r = "" then (st, r)
  else
    let s := rstripDot r
    if s = "" then (st, r)
    else if strContains s "." ∧ ¬ isDigitCh (s.data.headD ' ') then
      let p := anonymize_domain st s
      (p.2, p.1 ++ ".")
    else (st, r)

def sanAnswers (st : SanState) : List String → SanState × List String
  | [] => (st, [])
  | r :: t =>
    let (st1, r1) := sanAnswer st r
    let (st2, t1) := sanAnswers st1 t
    (st2, r1 :: t1)

/-- `sanitize_dns`. -/
def sanitize_dns (st : SanState) (pkt : Packet) : SanState × Packet :=
  match pkt.dns with
  | none => (st, pkt)
  | some dns =>
    let (st1, dns1) :=
      match dns.qd with
      | some qname0 =>
        let qname := rstripDot qname0
        let p := anonymize_domain st qname
        ({ p.2 with dnsSanitized := p.2.dnsSanitized + 1 },
          { dns with qd := some (p.1 ++ ".") })
      | none => (st, dns)
    let (st2, an2) := sanAnswers st1 dns1.an
    (st2, { pkt with dns := some { dns1 with an := an2 } })

def sensitiveHeaders : List String :=
  ["Authorization:", "Cookie:", "Set-Cookie:", "X-API-Key:", "X-Auth-Token:",
   "User-Agent:", "X-Forwarded-For:", "X-Real-IP:"]

/-- `re.sub(f'{header}[^\r\n]*', f'{header} [REDACTED]', payload)`: replace
every occurrence of the header name together with the remainder of its line.
Fuel-based recursion; each step consumes at least one character, so fuel
`payload.length` suffices. -/
def redactAux (hd : List Char) (fuel : Nat) (cs : List Char) : List Char :=
  match fuel, cs with
  | 0, rest => rest
  | _, [] => []
  | fuel + 1, c :: t =>
    if pfxOf hd (c :: t) then
      hd ++ (" [REDACTED]".data) ++
        redactAux hd fuel
          (((c :: t).drop hd.length).dropWhile (fun ch => ch ≠ '\r' ∧ ch ≠ '\n'))
    else c :: redactAux hd fuel t

def redactHeaderLine (hd : String) (payload : String) : String :=
  ⟨redactAux hd.data payload.data.length payload.data⟩

/-- One sensitive header inside `sanitize_http`'s loop: if the header name
occurs, redact its line(s) and bump `http_sanitized`. -/
def redactStep (acc : SanState × String) (hd : String) : SanState × String :=
  if strContains acc.2 hd then
    ({ acc.1 with httpSanitized := acc.1.httpSanitized + 1 },
      redactHeaderLine hd acc.2)
  else acc

/-- `sanitize_http`. The email-address and API-key regex substitutions of the
source are not modelled: no claim refers to them; they only rewrite the
payload text further and bump `sensitive_data_removed`. -/
def sanitize_http (st : SanState) (pkt : Packet) : SanState × Packet :=
  match pkt.raw with
  | none => (st, pkt)
  | some payload =>
    if strContains payload "HTTP/" ∨ strContains payload "GET " ∨
        strContains payload "POST " then
      let r := sensitiveHeaders.foldl redactStep (st, payload)
      (r.1, { pkt with raw := some r.2 })
    else (st, pkt)

/-- `sanitize_tls`. -/
def sanitize_tls (st : SanState) (pkt : Packet) : SanState × Packet :=
  if pkt.tls ∧ pkt.tlsClientHello then
    ({ st with tlsSanitized := st.tlsSanitized + 1 }, pkt)
  else (st, pkt)

/-- The Ethernet block of `sanitize_packet`. -/
def sanEther (st : SanState) (pkt : Packet) : SanState × Packet :=
  match pkt.ether with
  | none => (st, pkt)
  | some (esrc, edst) =>
    let (st1, esrc1) :=
      if esrc ≠ "00:00:00:00:00:00" then
        let p := anonymize_mac st esrc
        ({ p.2 with macAnonymized := p.2.macAnonymized + 1 }, p.1)
      else (st, esrc)
    let (st2, edst1) :=
      if edst ≠ "00:00:00:00:00:00" then
        let p := anonymize_mac st1 edst
        ({ p.2 with macAnonymized := p.2.macAnonymized + 1 }, p.1)
      else (st1, edst)
    (st2, { pkt with ether := some (esrc1, edst1) })

/-- The IPv4 block of `sanitize_packet` (checksum deletion not modelled). -/
def sanIp (st : SanState) (pkt : Packet) : SanState × Packet :=
  match pkt.ip with
  | none => (st, pkt)
  | some (s, d) =>
    let p1 := anonymize_ip st s
    let p2 := anonymize_ip p1.2 d
    ({ p2.2 with ipAnonymized := p2.2.ipAnonymized + 2 },
      { pkt with ip := some (p1.1, p2.1) })

/-- The IPv6 block of `sanitize_packet`. -/
def sanIpv6 (st : SanState) (pkt : Packet) : SanState × Packet :=
  match pkt.ipv6 with
  | none => (st, pkt)
  | some (s, d) =>
    let p1 := anonymize_ip st s
    let p2 := anonymize_ip p1.2 d
    ({ p2.2 with ipAnonymized := p2.2.ipAnonymized + 2 },
      { pkt with ipv6 := some (p1.1, p2.1) })

/-- The body of `sanitize_packet`'s `try` block: the six sequential blocks of
the method. A packet marked with `decodeFault` raises at its first layer
access. -/
def sanitizeBody (st : SanState) (pkt : Packet) : Except Unit (SanState × Packet) :=
  if pkt.decodeFault then .error () else
  let (st, pkt) := sanEther st pkt
  let (st, pkt) := sanIp st pkt
  let (st, pkt) := sanIpv6 st pkt
  let (st, pkt) := sanitize_dns st pkt
  let (st, pkt) := sanitize_http st pkt
  let (st, pkt) := sanitize_tls st pkt
  .ok (st, pkt)

/-- `sanitize_packet`: bump `total_packets`, then run the body inside
`try/except`; on an exception the warning branch returns the packet. -/
def sanitize_packet (st0 : SanState) (pkt : Packet) : SanState × Packet :=
  let st := { st0 with totalPackets := st0.totalPackets + 1 }
  match sanitizeBody st pkt with
  | .ok r => r
  | .error _ => (st, pkt)

/-- The per-packet loop of `sanitize_file` (the surrounding file I/O is
outside the embedded core). -/
def sanitizeAll (st : SanState) : List Packet → SanState × List Packet
  | [] => (st, [])
  | p :: t =>
    let (st1, p1) := sanitize_packet st p
    let (st2, t1) := sanitizeAll st1 t
    (st2, p1 :: t1)

/-! ## The analyzer (`prepare_for_ai_analysis.py`, class `PCAPAnalysisPrep`) -/

structure ResetEv where
  packetNum : Nat
  timestamp : Nat
  src : String
  dst : String
  seq : Nat
  ack : Nat
deriving DecidableEq

structure RetransEv where
  packetNum : Nat
  timestamp : Nat
  src : String
  dst : String
  seq : Nat
  length : Nat
deriving DecidableEq

structure DnsFailEv where
  packetNum : Nat
  timestamp : Nat
  query : String
  rcode : Nat
  rcodeName : String
deriving DecidableEq

structure HttpErrEv where
  packetNum : Nat
  timestamp : Nat
  src : String
  dst : String
  statusCode : String
  preview : String
deriving DecidableEq

structure ConnFailEv where
  packetNum : Nat
  timestamp : Nat
  src : String
  dst : String
  failType : String
deriving DecidableEq

structure LargeEv where
  packetNum : Nat
  timestamp : Nat
  size : Nat
  src : String
  dst : String
deriving DecidableEq

/-- One `stats['conversations']` entry (a `defaultdict` default on first
access). -/
structure ConvData where
  packets : Nat
  bytes : Nat
  firstSeen : Option Nat
  lastSeen : Option Nat
  flags : List String
deriving DecidableEq

def convDefault : ConvData := ⟨0, 0, none, none, []⟩

/-- The accumulated `self.stats` of `PCAPAnalysisPrep` (plus
`self.tcp_seq_track`). `errors_by_type` values are lists in the source; only
their lengths are ever exported, so each is abstracted to its length (keys
and insertion order are preserved). -/
structure Stats where
  totalPackets : Nat
  protocols : List (String × Nat)
  srcIps : List (String × Nat)
  dstIps : List (String × Nat)
  srcPorts : List (Nat × Nat)
  dstPorts : List (Nat × Nat)
  tcpFlags : List (String × Nat)
  dnsQueries : List (String × Nat)
  dnsFailures : List DnsFailEv
  httpErrors : List HttpErrEv
  tcpRetransmissions : List RetransEv
  tcpResets : List ResetEv
  connectionFailures : List ConnFailEv
  largePackets : List LargeEv
  errorsByType : List (String × Nat)
  conversations : List (String × ConvData)
  tcpSeqTrack : List (String × List String)
deriving DecidableEq

def initStats : Stats :=
  ⟨0, [], [], [], [], [], [], [], [], [], [], [], [], [], [], [], []⟩

/-- `f"{ip}:{port}"`. -/
def epStr (ip : String) (port : Nat) : String :=
  ip ++ ":" ++ toString port

/-- The conversation key `f"{ip.src}:{tcp.sport} -> {ip.dst}:{tcp.dport}"`. -/
def convKey (s : String) (sp : Nat) (d : String) (dp : Nat) : String :=
  epStr s sp ++ " -> " ++ epStr d dp

/-- The retransmission-tracker key
`f"{ip.src}:{tcp.sport}->{ip.dst}:{tcp.dport}"` (no spaces). -/
def connKey (s : String) (sp : Nat) (d : String) (dp : Nat) : String :=
  epStr s sp ++ "->" ++ epStr d dp

/-- The seen-set element `f"{tcp.seq}-{len(pkt)}"`. -/
def seqKey (seq ln : Nat) : String :=
  toString seq ++ "-" ++ toString ln

/-- `_dns_rcode_name`. -/
def dnsRcodeName (rcode : Nat) : String :=
  if rcode = 0 then "NOERROR"
  else if rcode = 1 then "FORMERR"
  else if rcode = 2 then "SERVFAIL"
  else if rcode = 3 then "NXDOMAIN"
  else if rcode = 4 then "NOTIMP"
  else if rcode = 5 then "REFUSED"
  else "UNKNOWN(" ++ toString rcode ++ ")"

/-- The network-layer part of `analyze_packet`: the `if pkt.haslayer(IP)` /
`elif pkt.haslayer(IPv6)` chain, with the TCP / UDP / ICMP sub-branches. -/
def analyzeNet (st : Stats) (pkt : Packet) (pktNum : Nat) : Stats :=
  match pkt.ip with
  | some (ipSrc, ipDst) =>
    let st := { st with
      protocols := cincr st.protocols "IPv4",
      srcIps := cincr st.srcIps ipSrc,
      dstIps := cincr st.dstIps ipDst }
    match pkt.tcp with
    | some tcp =>
      let ck := convKey ipSrc tcp.sport ipDst tcp.dport
      let conv := alookupD st.conversations ck convDefault
      let conv := { conv with
        packets := conv.packets + 1,
        bytes := conv.bytes + pkt.len,
        firstSeen := if conv.firstSeen = none then some pkt.time else conv.firstSeen,
        lastSeen := some pkt.time,
        flags := conv.flags ++ [tcp.flagsRepr] }
      let st := { st with conversations := aset st.conversations ck conv }
      let st := { st with
        protocols := cincr st.protocols "TCP",
        srcPorts := cincr st.srcPorts tcp.sport,
        dstPorts := cincr st.dstPorts tcp.dport }
      let flagNames :=
        (if tcp.flagS then ["SYN"] else []) ++ (if tcp.flagA then ["ACK"] else []) ++
        (if tcp.flagF then ["FIN"] else []) ++ (if tcp.flagR then ["RST"] else []) ++
        (if tcp.flagP then ["PSH"] else [])
      let flagStr := if flagNames.isEmpty then "NONE" else String.intercalate "|" flagNames
      let st := { st with tcpFlags := cincr st.tcpFlags flagStr }
      let st :=
        if tcp.flagR then
          { st with
            tcpResets := st.tcpResets ++
              [⟨pktNum, pkt.time, epStr ipSrc tcp.sport, epStr ipDst tcp.dport,
                tcp.seq, tcp.ack⟩],
            errorsByType := cincr st.errorsByType "TCP_RESET" }
        else st
      let nk := connKey ipSrc tcp.sport ipDst tcp.dport
      let sk := seqKey tcp.seq pkt.len
      let seen := alookupD st.tcpSeqTrack nk []
      let st :=
        if sk ∈ seen ∧ 60 < pkt.len then
          { st with
            tcpRetransmissions := st.tcpRetransmissions ++
              [⟨pktNum, pkt.time, epStr ipSrc tcp.sport, epStr ipDst tcp.dport,
                tcp.seq, pkt.len⟩],
            errorsByType := cincr st.errorsByType "TCP_RETRANSMISSION" }
        else
          { st with tcpSeqTrack := aset st.tcpSeqTrack nk (sadd seen sk) }
      if tcp.flagS ∧ ¬ tcp.flagA then
        { st with connectionFailures := st.connectionFailures ++
          [⟨pktNum, pkt.time, epStr ipSrc tcp.sport, epStr ipDst tcp.dport,
            "SYN_NO_RESPONSE"⟩] }
      else st
    | none =>
      match pkt.udp with
      | some udp =>
        let st := { st with
          protocols := cincr st.protocols "UDP",
          srcPorts := cincr st.srcPorts udp.sport,
          dstPorts := cincr st.dstPorts udp.dport }
        let ck := convKey ipSrc udp.sport ipDst udp.dport
        let conv := alookupD st.conversations ck convDefault
        let conv := { conv with
          packets := conv.packets + 1,
          bytes := conv.bytes + pkt.len,
          firstSeen := if conv.firstSeen = none then some pkt.time else conv.firstSeen,
          lastSeen := some pkt.time }
        { st with conversations := aset st.conversations ck conv }
      | none =>
        match pkt.icmp with
        | some icmp =>
          let st := { st with protocols := cincr st.protocols "ICMP" }
          if icmp.icmpType = 3 then
            { st with errorsByType := cincr st.errorsByType "ICMP_DEST_UNREACHABLE" }
          else st
        | none => st
  | none =>
    match pkt.ipv6 with
    | some _ => { st with protocols := cincr st.protocols "IPv6" }
    | none => st

/-- The DNS part of `analyze_packet`. -/
def analyzeDns (st : Stats) (pkt : Packet) (pktNum : Nat) : Stats :=
  match pkt.dns with
  | none => st
  | some dns =>
    if dns.qr = 0 then
      match dns.qd with
      | some q => { st with dnsQueries := cincr st.dnsQueries (rstripDot q) }
      | none => st
    else
      if dns.rcode ≠ 0 then
        let qname :=
          match dns.qd with
          | some q => rstripDot q
          | none => "unknown"
        { st with
          dnsFailures := st.dnsFailures ++
            [⟨pktNum, pkt.time, qname, dns.rcode, dnsRcodeName dns.rcode⟩],
          errorsByType := cincr st.errorsByType "DNS_FAILURE" }
      else st

/-- The fixed list of HTTP error codes scanned by `analyze_packet`. -/
def errorCodes : List String :=
  ["400", "401", "403", "404", "500", "502", "503", "504"]

/-- `f'HTTP/1.1 {code}' in payload or f'HTTP/1.0 {code}' in payload`. -/
def httpCodeMatch (payload c : String) : Bool :=
  strContains payload ("HTTP/1.1 " ++ c) || strContains payload ("HTTP/1.0 " ++ c)

/-- The `for error_code in [...]: ... break` loop: the first listed code whose
status-line pattern occurs, if any. -/
def findHttpError (payload : String) : List String → Option String
  | [] => none
  | c :: cs => if httpCodeMatch payload c then some c else findHttpError payload cs

/-- The HTTP-error part of `analyze_packet`. -/
def analyzeHttp (st : Stats) (pkt : Packet) (pktNum : Nat) : Stats :=
  match pkt.raw with
  | none => st
  | some payload =>
    if strContains payload "HTTP/" then
      match findHttpError payload errorCodes with
      | some c =>
        let srcs :=
          match pkt.ip, pkt.tcp with
          | some (s, _), some t => epStr s t.sport
          | _, _ => "unknown"
        let dsts :=
          match pkt.ip, pkt.tcp with
          | some (_, d), some t => epStr d t.dport
          | _, _ => "unknown"
        { st with
          httpErrors := st.httpErrors ++
            [⟨pktNum, pkt.time, srcs, dsts, c, strTake payload 200⟩],
          errorsByType := cincr st.errorsByType ("HTTP_" ++ c) }
      | none => st
    else st

/-- The large-packet part of `analyze_packet`. -/
def analyzeLarge (st : Stats) (pkt : Packet) (pktNum : Nat) : Stats :=
  if 1400 < pkt.len then
    let s := match pkt.ip with | some (x, _) => x | none => "unknown"
    let d := match pkt.ip with | some (_, x) => x | none => "unknown"
    { st with largePackets := st.largePackets ++ [⟨pktNum, pkt.time, pkt.len, s, d⟩] }
  else st

/-- The conversation key a packet updates, if any (TCP takes precedence over
UDP, mirroring the `elif` chain; packets without an IPv4 layer update
none). -/
def convKeyOf (pkt : Packet) : Option String :=
  match pkt.ip with
  | some (s, d) =>
    match pkt.tcp with
    | some t => some (convKey s t.sport d t.dport)
    | none =>
      match pkt.udp with
      | some u => some (convKey s u.sport d u.dport)
      | none => none
  | none => none

/-- `analyze_packet`: the four sequential blocks of the method. -/
def analyze_packet (st : Stats) (pkt : Packet) (pktNum : Nat) : Stats :=
  analyzeLarge (analyzeHttp (analyzeDns (analyzeNet st pkt pktNum) pkt pktNum) pkt pktNum) pkt pktNum

/-- `analyze_packet` as the fallible call it is inside `analyze_all`: a
packet whose layer handling raises is modelled by `decodeFault`. -/
def analyzePacketE (st : Stats) (pkt : Packet) (pktNum : Nat) : Except Unit Stats :=
  if pkt.decodeFault then .error () else .ok (analyze_packet st pkt pktNum)

def analyzeAllAux (st : Stats) : List Packet → Nat → Except Unit Stats
  | [], _ => .ok st
  | p :: t, n =>
    match analyzePacketE st p n with
    | .ok st1 => analyzeAllAux st1 t (n + 1)
    | .error e => .error e

/-- `analyze_all`: `analyze_packet(pkt, i + 1)` over the whole capture, with
no per-packet exception handling — a raising packet propagates. -/
def analyze_all (st : Stats) (pkts : List Packet) : Except Unit Stats :=
  analyzeAllAux st pkts 1

/-- The pure run of the loop over packets that do not raise. -/
def analyzeList (st : Stats) : List Packet → Nat → Stats
  | [], _ => st
  | p :: t, n => analyzeList (analyze_packet st p n) t (n + 1)

/-! ## Aggregation & export -/

structure ErrorSummary where
  totalErrors : Nat
  errorTypes : List (String × Nat)
  tcpResets : Nat
  tcpRetransmissions : Nat
  dnsFailures : Nat
  httpErrors : Nat
  connectionFailures : Nat
deriving DecidableEq

/-- `summary.json`. `file_size_mb` is kept as the exact byte size (the source
divides by 1024²); `analysis_timestamp` is the `datetime.now().isoformat()`
clock reading taken during export. -/
structure Summary where
  sourceFile : String
  totalPackets : Nat
  analysisTimestamp : String
  fileSizeBytes : Nat
  protocolDistribution : List (String × Nat)
  topSources : List (String × Nat)
  topDestinations : List (String × Nat)
  topPortsSource : List (Nat × Nat)
  topPortsDestination : List (Nat × Nat)
  tcpFlagsDistribution : List (String × Nat)
  errorSummary : ErrorSummary
  topDnsQueries : List (String × Nat)
deriving DecidableEq

/-- `generate_summary`. -/
def generate_summary (st : Stats) (sourceFile : String) (fileSizeBytes : Nat)
    (now : String) : Summary :=
  { sourceFile := sourceFile
    totalPackets := st.totalPackets
    analysisTimestamp := now
    fileSizeBytes := fileSizeBytes
    protocolDistribution := mostCommonAll st.protocols
    topSources := mostCommon 10 st.srcIps
    topDestinations := mostCommon 10 st.dstIps
    topPortsSource := mostCommon 10 st.srcPorts
    topPortsDestination := mostCommon 10 st.dstPorts
    tcpFlagsDistribution := mostCommon 10 st.tcpFlags
    errorSummary :=
      { totalErrors := (st.errorsByType.map (fun kv => kv.2)).sum
        errorTypes := st.errorsByType
        tcpResets := st.tcpResets.length
        tcpRetransmissions := st.tcpRetransmissions.length
        dnsFailures := st.dnsFailures.length
        httpErrors := st.httpErrors.length
        connectionFailures := st.connectionFailures.length }
    topDnsQueries := mostCommon 20 st.dnsQueries }

/-- `errors_detailed.json`. -/
structure ErrorDetails where
  tcpResets : List ResetEv
  tcpRetransmissions : List RetransEv
  dnsFailures : List DnsFailEv
  httpErrors : List HttpErrEv
  connectionFailures : List ConnFailEv
  largePackets : List LargeEv
deriving DecidableEq

/-- `generate_error_details`. -/
def generate_error_details (st : Stats) : ErrorDetails :=
  ⟨st.tcpResets.take 50, st.tcpRetransmissions.take 50, st.dnsFailures.take 50,
   st.httpErrors.take 50, st.connectionFailures.take 30, st.largePackets.take 20⟩

/-- One entry of `conversations.json`. `round(duration, 3)` is the identity
on the exact natural-valued timestamps of the model. -/
structure ConvReport where
  conversation : String
  packets : Nat
  bytes : Nat
  durationSeconds : Nat
  flagsSummary : List (String × Nat)
deriving DecidableEq

def convReportOf (kv : String × ConvData) : ConvReport :=
  let duration :=
    match kv.2.firstSeen with
    | some f => (kv.2.lastSeen.getD f) - f
    | none => 0
  ⟨kv.1, kv.2.packets, kv.2.bytes, duration, mostCommon 5 (countList kv.2.flags)⟩

/-- `generate_conversation_summary`: top 20 conversations by packet count
(descending, stable), each with its flag histogram reduced to 5 entries. -/
def generate_conversation_summary (st : Stats) : List ConvReport :=
  ((sortDescBy (fun kv => kv.2.packets) st.conversations).take 20).map convReportOf

/-- The three JSON artifacts written by `export_analysis`. -/
structure ExportedReports where
  summary : Summary
  errors : ErrorDetails
  conversations : List ConvReport
deriving DecidableEq

/-- `export_analysis`, restricted to the three JSON artifacts; `now` is the
wall-clock reading taken inside `generate_summary`. -/
def export_analysis (st : Stats) (sourceFile : String) (fileSizeBytes : Nat)
    (now : String) : ExportedReports :=
  ⟨generate_summary st sourceFile fileSizeBytes now, generate_error_details st,
   generate_conversation_summary st⟩

/-- A full prepare-stage run: `load_packets` sets `total_packets`, then
`analyze_all`, then export. `now` is the wall clock at export time. -/
def prepareRun (pkts : List Packet) (sourceFile : String) (fileSizeBytes : Nat)
    (now : String) : Except Unit ExportedReports :=
  match analyze_all { initStats with totalPackets := pkts.length } pkts with
  | .ok st => .ok (export_analysis st sourceFile fileSizeBytes now)
  | .error e => .error e

/-- A full sanitize-stage run; the wall clock `now` is accepted to mirror the
run environment but the sanitized record stream cannot depend on it. -/
def sanitizeRun (pkts : List Packet) (preserve : Bool) (_now : String) :
    SanState × List Packet :=
  sanitizeAll (initSan preserve) pkts

/-! ## Shared lemmas about the container helpers -/

theorem alookup_aset_ne (l : List (K × V)) (k k' : K) (v : V) (h : k' ≠ k) :
    alookup (aset l k' v) k = alookup l k := by
  induction l with
  | nil => simp [aset, alookup, h]
  | cons p t ih =>
    obtain ⟨pk, pv⟩ := p
    by_cases hp : pk = k'
    · subst hp
      simp [aset, alookup, h]
    · simp only [aset, if_neg hp]
      by_cases hk : pk = k
      · simp [alookup, hk]
      · simp [alookup, hk, ih]

theorem alookup_aset_self (l : List (K × V)) (k : K) (v : V) :
    alookup (aset l k v) k = some v := by
  induction l with
  | nil => simp [aset, alookup]
  | cons p t ih =>
    obtain ⟨pk, pv⟩ := p
    by_cases hp : pk = k
    · subst hp
      simp [aset, alookup]
    · simp [aset, alookup, hp, ih]

theorem alookupD_aset_self (l : List (K × V)) (k : K) (v d : V) :
    alookupD (aset l k v) k d = v := by
  simp [alookupD, alookup_aset_self]

theorem alookupD_aset_ne (l : List (K × V)) (k k' : K) (v d : V) (h : k' ≠ k) :
    alookupD (aset l k' v) k d = alookupD l k d := by
  simp [alookupD, alookup_aset_ne _ _ _ _ h]

theorem alookupD_cincr_self (l : List (K × Nat)) (k : K) :
    alookupD (cincr l k) k 0 = alookupD l k 0 + 1 := by
  induction l with
  | nil => simp [cincr, alookupD, alookup]
  | cons p t ih =>
    obtain ⟨pk, pv⟩ := p
    by_cases hp : pk = k
    · subst hp
      simp [cincr, alookupD, alookup]
    · simp [cincr, alookupD, alookup, hp] at ih ⊢
      exact ih

theorem alookupD_cincr_ne (l : List (K × Nat)) (k k' : K) (h : k' ≠ k) :
    alookupD (cincr l k') k 0 = alookupD l k 0 := by
  induction l with
  | nil => simp [cincr, alookupD, alookup, h]
  | cons p t ih =>
    obtain ⟨pk, pv⟩ := p
    by_cases hp : pk = k'
    · subst hp
      simp [cincr, alookupD, alookup, h]
    · by_cases hk : pk = k
      · simp [cincr, alookupD, alookup, hp, hk, Ne.symm h]
      · simp [cincr, alookupD, alookup, hp, hk] at ih ⊢
        exact ih

theorem mem_sadd_self (l : List K) (k : K) : k ∈ sadd l k := by
  by_cases h : k ∈ l <;> simp [sadd, h]

/-- If `findHttpError` returns a code, that code is in the scanned list and
its pattern occurs in the payload. -/
theorem findHttpError_mem (payload : String) (l : List String) (c : String)
    (h : findHttpError payload l = some c) :
    c ∈ l ∧ httpCodeMatch payload c = true := by
  induction l with
  | nil => simp [findHttpError] at h
  | cons x xs ih =>
    by_cases hx : httpCodeMatch payload x
    · simp [findHttpError, hx] at h
      subst h
      exact ⟨List.mem_cons_self _ _, hx⟩
    · simp [findHttpError, hx] at h
      obtain ⟨hm, hmm⟩ := ih h
      exact ⟨List.mem_cons_of_mem _ hm, hmm⟩

/-! ## Frame lemmas for the four blocks of `analyze_packet` -/

/-- The DNS block leaves every field except `dnsQueries`, `dnsFailures` and
`errorsByType` untouched. -/
theorem analyzeDns_frame (st : Stats) (pkt : Packet) (n : Nat) :
    (analyzeDns st pkt n).tcpResets = st.tcpResets ∧
    (analyzeDns st pkt n).tcpRetransmissions = st.tcpRetransmissions ∧
    (analyzeDns st pkt n).tcpSeqTrack = st.tcpSeqTrack ∧
    (analyzeDns st pkt n).conversations = st.conversations ∧
    (analyzeDns st pkt n).httpErrors = st.httpErrors ∧
    (analyzeDns st pkt n).connectionFailures = st.connectionFailures ∧
    (analyzeDns st pkt n).largePackets = st.largePackets := by
  unfold analyzeDns
  rcases pkt.dns with _ | dns
  · simp
  · by_cases h1 : dns.qr = 0 <;> by_cases h2 : dns.rcode = 0 <;>
      rcases hqd : dns.qd with _ | q <;> simp [h1, h2, hqd]

/-- The DNS block changes `errorsByType` only at the `DNS_FAILURE` key. -/
theorem analyzeDns_errors_frame (st : Stats) (pkt : Packet) (n : Nat) (k : String)
    (h : k ≠ "DNS_FAILURE") :
    alookupD (analyzeDns st pkt n).errorsByType k 0 = alookupD st.errorsByType k 0 := by
  unfold analyzeDns
  rcases pkt.dns with _ | dns
  · simp
  · by_cases h1 : dns.qr = 0 <;> by_cases h2 : dns.rcode = 0 <;>
      rcases hqd : dns.qd with _ | q <;>
      simp [h1, h2, hqd, alookupD_cincr_ne _ _ _ (Ne.symm h)]

/-- The HTTP block leaves every field except `httpErrors` and `errorsByType`
untouched. -/
theorem analyzeHttp_frame (st : Stats) (pkt : Packet) (n : Nat) :
    (analyzeHttp st pkt n).tcpResets = st.tcpResets ∧
    (analyzeHttp st pkt n).tcpRetransmissions = st.tcpRetransmissions ∧
    (analyzeHttp st pkt n).tcpSeqTrack = st.tcpSeqTrack ∧
    (analyzeHttp st pkt n).conversations = st.conversations ∧
    (analyzeHttp st pkt n).dnsFailures = st.dnsFailures ∧
    (analyzeHttp st pkt n).connectionFailures = st.connectionFailures ∧
    (analyzeHttp st pkt n).largePackets = st.largePackets := by
  unfold analyzeHttp
  rcases pkt.raw with _ | payload
  · simp
  · by_cases hh : strContains payload "HTTP/" <;>
      rcases hf : findHttpError payload errorCodes with _ | c <;> simp [hh, hf]

/-- The HTTP block changes `errorsByType` only at `HTTP_<code>` keys for the
fixed code list. -/
theorem analyzeHttp_errors_frame (st : Stats) (pkt : Packet) (n : Nat) (k : String)
    (h : ∀ c ∈ errorCodes, k ≠ "HTTP_" ++ c) :
    alookupD (analyzeHttp st pkt n).errorsByType k 0 = alookupD st.errorsByType k 0 := by
  unfold analyzeHttp
  rcases pkt.raw with _ | payload
  · simp
  · by_cases hh : strContains payload "HTTP/" <;>
      rcases hf : findHttpError payload errorCodes with _ | c <;> simp [hh, hf]
    have hc := (findHttpError_mem payload errorCodes c hf).1
    simp [alookupD_cincr_ne _ _ _ (Ne.symm (h c hc))]

/-- The large-packet block changes only `largePackets`. -/
theorem analyzeLarge_frame (st : Stats) (pkt : Packet) (n : Nat) :
    (analyzeLarge st pkt n).tcpResets = st.tcpResets ∧
    (analyzeLarge st pkt n).tcpRetransmissions = st.tcpRetransmissions ∧
    (analyzeLarge st pkt n).tcpSeqTrack = st.tcpSeqTrack ∧
    (analyzeLarge st pkt n).conversations = st.conversations ∧
    (analyzeLarge st pkt n).dnsFailures = st.dnsFailures ∧
    (analyzeLarge st pkt n).httpErrors = st.httpErrors ∧
    (analyzeLarge st pkt n).connectionFailures = st.connectionFailures ∧
    (analyzeLarge st pkt n).errorsByType = st.errorsByType := by
  unfold analyzeLarge
  by_cases h : 1400 < pkt.len <;> simp [h]

/-- The network block leaves the DNS, HTTP and large-packet fields
untouched. -/
theorem analyzeNet_frame (st : Stats) (pkt : Packet) (n : Nat) :
    (analyzeNet st pkt n).dnsQueries = st.dnsQueries ∧
    (analyzeNet st pkt n).dnsFailures = st.dnsFailures ∧
    (analyzeNet st pkt n).httpErrors = st.httpErrors ∧
    (analyzeNet st pkt n).largePackets = st.largePackets := by
  unfold analyzeNet
  rcases pkt.ip with _ | ⟨s, d⟩
  · rcases pkt.ipv6 with _ | p6 <;> simp
  · rcases pkt.tcp with _ | t
    · rcases pkt.udp with _ | u
      · rcases pkt.icmp with _ | i
        · simp
        · by_cases h3 : i.icmpType = 3 <;> simp [h3]
      · simp
    · by_cases hr : t.flagR <;>
        by_cases hm : seqKey t.seq pkt.len ∈
          alookupD st.tcpSeqTrack (connKey s t.sport d t.dport) [] ∧ 60 < pkt.len <;>
        by_cases hs : t.flagS = true ∧ t.flagA = false <;> simp [hr, hm, hs]

/-- Behaviour of the network block on an IPv4 TCP packet, for the fields the
claims depend on. -/
theorem analyzeNet_tcp_spec (st : Stats) (pkt : Packet) (n : Nat) (s d : String)
    (t : TCPInfo) (hip : pkt.ip = some (s, d)) (htcp : pkt.tcp = some t) :
    (analyzeNet st pkt n).tcpResets =
      (if t.flagR then
        st.tcpResets ++ [⟨n, pkt.time, epStr s t.sport, epStr d t.dport, t.seq, t.ack⟩]
      else st.tcpResets) ∧
    alookupD (analyzeNet st pkt n).errorsByType "TCP_RESET" 0 =
      (if t.flagR then alookupD st.errorsByType "TCP_RESET" 0 + 1
       else alookupD st.errorsByType "TCP_RESET" 0) ∧
    (analyzeNet st pkt n).tcpRetransmissions =
      (if seqKey t.seq pkt.len ∈ alookupD st.tcpSeqTrack (connKey s t.sport d t.dport) [] ∧
          60 < pkt.len then
        st.tcpRetransmissions ++
          [⟨n, pkt.time, epStr s t.sport, epStr d t.dport, t.seq, pkt.len⟩]
      else st.tcpRetransmissions) ∧
    (analyzeNet st pkt n).tcpSeqTrack =
      (if seqKey t.seq pkt.len ∈ alookupD st.tcpSeqTrack (connKey s t.sport d t.dport) [] ∧
          60 < pkt.len then
        st.tcpSeqTrack
      else aset st.tcpSeqTrack (connKey s t.sport d t.dport)
        (sadd (alookupD st.tcpSeqTrack (connKey s t.sport d t.dport) [])
          (seqKey t.seq pkt.len))) ∧
    (analyzeNet st pkt n).conversations =
      aset st.conversations (convKey s t.sport d t.dport)
        (let conv := alookupD st.conversations (convKey s t.sport d t.dport) convDefault
         { conv with
            packets := conv.packets + 1, bytes := conv.bytes + pkt.len,
            firstSeen := if conv.firstSeen = none then some pkt.time else conv.firstSeen,
            lastSeen := some pkt.time, flags := conv.flags ++ [t.flagsRepr] }) := by
  unfold analyzeNet
  by_cases hr : t.flagR <;>
    by_cases hm : seqKey t.seq pkt.len ∈
      alookupD st.tcpSeqTrack (connKey s t.sport d t.dport) [] ∧ 60 < pkt.len <;>
    by_cases hs : t.flagS = true ∧ t.flagA = false <;>
    simp [hip, htcp, hr, hm, hs, alookupD_cincr_self,
      alookupD_cincr_ne _ _ _
        (by decide : ("TCP_RETRANSMISSION" : String) ≠ "TCP_RESET")]

/-- The network block touches no conversation entry other than the packet's
own conversation key. -/
theorem analyzeNet_conv_frame (st : Stats) (pkt : Packet) (n : Nat) (k : String)
    (h : convKeyOf pkt ≠ some k) :
    alookup (analyzeNet st pkt n).conversations k = alookup st.conversations k := by
  unfold analyzeNet
  rcases hip : pkt.ip with _ | ⟨s, d⟩
  · rcases h6 : pkt.ipv6 with _ | p6 <;> simp [hip, h6]
  · rcases htcp : pkt.tcp with _ | t
    · rcases hudp : pkt.udp with _ | u
      · rcases hicmp : pkt.icmp with _ | i
        · simp [hip, htcp, hudp, hicmp]
        · by_cases h3 : i.icmpType = 3 <;> simp [hip, htcp, hudp, hicmp, h3]
      · have hk : convKey s u.sport d u.dport ≠ k := by
          simp [convKeyOf, hip, htcp, hudp] at h
          exact h
        simp [hip, htcp, hudp, alookup_aset_ne _ _ _ _ hk]
    · have hk : convKey s t.sport d t.dport ≠ k := by
        simp [convKeyOf, hip, htcp] at h
        exact h
      by_cases hr : t.flagR <;>
        by_cases hm : seqKey t.seq pkt.len ∈
          alookupD st.tcpSeqTrack (connKey s t.sport d t.dport) [] ∧ 60 < pkt.len <;>
        by_cases hs : t.flagS = true ∧ t.flagA = false <;>
        simp [hip, htcp, hr, hm, hs, alookup_aset_ne _ _ _ _ hk]

/-- `analyze_packet`-level behaviour on an IPv4 TCP packet: the DNS, HTTP and
large-packet blocks leave the TCP-related fields of the network block's
result unchanged. -/
theorem analyze_packet_tcp_spec (st : Stats) (pkt : Packet) (n : Nat) (s d : String)
    (t : TCPInfo) (hip : pkt.ip = some (s, d)) (htcp : pkt.tcp = some t) :
    (analyze_packet st pkt n).tcpResets =
      (if t.flagR then
        st.tcpResets ++ [⟨n, pkt.time, epStr s t.sport, epStr d t.dport, t.seq, t.ack⟩]
      else st.tcpResets) ∧
    alookupD (analyze_packet st pkt n).errorsByType "TCP_RESET" 0 =
      (if t.flagR then alookupD st.errorsByType "TCP_RESET" 0 + 1
       else alookupD st.errorsByType "TCP_RESET" 0) ∧
    (analyze_packet st pkt n).tcpRetransmissions =
      (if seqKey t.seq pkt.len ∈ alookupD st.tcpSeqTrack (connKey s t.sport d t.dport) [] ∧
          60 < pkt.len then
        st.tcpRetransmissions ++
          [⟨n, pkt.time, epStr s t.sport, epStr d t.dport, t.seq, pkt.len⟩]
      else st.tcpRetransmissions) ∧
    (analyze_packet st pkt n).tcpSeqTrack =
      (if seqKey t.seq pkt.len ∈ alookupD st.tcpSeqTrack (connKey s t.sport d t.dport) [] ∧
          60 < pkt.len then
        st.tcpSeqTrack
      else aset st.tcpSeqTrack (connKey s t.sport d t.dport)
        (sadd (alookupD st.tcpSeqTrack (connKey s t.sport d t.dport) [])
          (seqKey t.seq pkt.len))) ∧
    (analyze_packet st pkt n).conversations =
      aset st.conversations (convKey s t.sport d t.dport)
        (let conv := alookupD st.conversations (convKey s t.sport d t.dport) convDefault
         { conv with
            packets := conv.packets + 1, bytes := conv.bytes + pkt.len,
            firstSeen := if conv.firstSeen = none then some pkt.time else conv.firstSeen,
            lastSeen := some pkt.time, flags := conv.flags ++ [t.flagsRepr] }) := by
  obtain ⟨r1, e1, r2, r3, c1⟩ := analyzeNet_tcp_spec st pkt n s d t hip htcp
  obtain ⟨d1, d2, d3, d4, d5, d6, d7⟩ := analyzeDns_frame (analyzeNet st pkt n) pkt n
  have de := analyzeDns_errors_frame (analyzeNet st pkt n) pkt n "TCP_RESET" (by decide)
  obtain ⟨h1, h2, h3, h4, h5, h6, h7⟩ :=
    analyzeHttp_frame (analyzeDns (analyzeNet st pkt n) pkt n) pkt n
  have he := analyzeHttp_errors_frame (analyzeDns (analyzeNet st pkt n) pkt n) pkt n
    "TCP_RESET" (by decide)
  obtain ⟨l1, l2, l3, l4, l5, l6, l7, l8⟩ :=
    analyzeLarge_frame (analyzeHttp (analyzeDns (analyzeNet st pkt n) pkt n) pkt n) pkt n
  unfold analyze_packet
  refine ⟨?_, ?_, ?_, ?_, ?_⟩
  · rw [l1, h1, d1, r1]
  · rw [l8, he, de, e1]
  · rw [l2, h2, d2, r2]
  · rw [l3, h3, d3, r3]
  · rw [l4, h4, d4, c1]

/-- `analyze_packet` touches no conversation entry other than the packet's
own conversation key. -/
theorem analyze_packet_conv_frame (st : Stats) (pkt : Packet) (n : Nat) (k : String)
    (h : convKeyOf pkt ≠ some k) :
    alookup (analyze_packet st pkt n).conversations k = alookup st.conversations k := by
  obtain ⟨-, -, -, d4, -, -, -⟩ := analyzeDns_frame (analyzeNet st pkt n) pkt n
  obtain ⟨-, -, -, h4, -, -, -⟩ :=
    analyzeHttp_frame (analyzeDns (analyzeNet st pkt n) pkt n) pkt n
  obtain ⟨-, -, -, l4, -, -, -, -⟩ :=
    analyzeLarge_frame (analyzeHttp (analyzeDns (analyzeNet st pkt n) pkt n) pkt n) pkt n
  unfold analyze_packet
  rw [l4, h4, d4, analyzeNet_conv_frame st pkt n k h]

/-- The DNS block on a DNS response: a non-zero `rcode` appends exactly one
failure record; `rcode = 0` appends none. -/
theorem analyzeDns_resp_spec (st : Stats) (pkt : Packet) (n : Nat) (dns : DNSInfo)
    (hdns : pkt.dns = some dns) (hresp : dns.qr ≠ 0) :
    (dns.rcode ≠ 0 → (analyzeDns st pkt n).dnsFailures =
      st.dnsFailures ++
        [⟨n, pkt.time, (match dns.qd with | some q => rstripDot q | none => "unknown"),
          dns.rcode, dnsRcodeName dns.rcode⟩]) ∧
    (dns.rcode = 0 → (analyzeDns st pkt n).dnsFailures = st.dnsFailures) := by
  unfold analyzeDns
  by_cases h2 : dns.rcode = 0 <;> simp [hdns, hresp, h2]

/-- `analyze_packet`-level DNS-failure behaviour. -/
theorem analyze_packet_dns_spec (st : Stats) (pkt : Packet) (n : Nat) (dns : DNSInfo)
    (hdns : pkt.dns = some dns) (hresp : dns.qr ≠ 0) :
    (dns.rcode ≠ 0 → (analyze_packet st pkt n).dnsFailures =
      st.dnsFailures ++
        [⟨n, pkt.time, (match dns.qd with | some q => rstripDot q | none => "unknown"),
          dns.rcode, dnsRcodeName dns.rcode⟩]) ∧
    (dns.rcode = 0 → (analyze_packet st pkt n).dnsFailures = st.dnsFailures) := by
  obtain ⟨-, nf, -, -⟩ := analyzeNet_frame st pkt n
  obtain ⟨sp1, sp2⟩ := analyzeDns_resp_spec (analyzeNet st pkt n) pkt n dns hdns hresp
  obtain ⟨-, -, -, -, h5, -, -⟩ :=
    analyzeHttp_frame (analyzeDns (analyzeNet st pkt n) pkt n) pkt n
  obtain ⟨-, -, -, -, l5, -, -, -⟩ :=
    analyzeLarge_frame (analyzeHttp (analyzeDns (analyzeNet st pkt n) pkt n) pkt n) pkt n
  unfold analyze_packet
  constructor
  · intro hrc
    rw [l5, h5, sp1 hrc, nf]
  · intro hrc
    rw [l5, h5, sp2 hrc, nf]

/-- `analyze_packet`-level HTTP-error behaviour: when the payload passes the
`HTTP/` check and the code scan finds a first matching code, exactly one
event with that code and a 200-character-bounded preview is appended. -/
theorem analyze_packet_http_spec (st : Stats) (pkt : Packet) (n : Nat)
    (payload c : String) (hraw : pkt.raw = some payload)
    (hhttp : strContains payload "HTTP/" = true)
    (hfind : findHttpError payload errorCodes = some c) :
    ∃ sA dA, (analyze_packet st pkt n).httpErrors =
      st.httpErrors ++ [⟨n, pkt.time, sA, dA, c, strTake payload 200⟩] := by
  obtain ⟨-, -, hf, -⟩ := analyzeNet_frame st pkt n
  obtain ⟨-, -, -, -, hd5, -, -⟩ := analyzeDns_frame (analyzeNet st pkt n) pkt n
  obtain ⟨-, -, -, -, -, l6, -, -⟩ :=
    analyzeLarge_frame (analyzeHttp (analyzeDns (analyzeNet st pkt n) pkt n) pkt n) pkt n
  unfold analyze_packet
  rw [l6]
  unfold analyzeHttp
  rcases hip : pkt.ip with _ | ⟨s, d⟩ <;> rcases htcp : pkt.tcp with _ | t <;>
    simp [hraw, hhttp, hfind, hd5, hf, hip, htcp]

/-! ## Replay lemmas for retransmission detection -/

/-- Replaying an already-seen pair with frame length > 60: every packet
appends exactly one retransmission event and leaves the seen-set of the
connection key untouched. -/
theorem replay_seen (pkt : Packet) (s d : String) (t : TCPInfo)
    (hip : pkt.ip = some (s, d)) (htcp : pkt.tcp = some t) (hlen : 60 < pkt.len) :
    ∀ (N : Nat) (st : Stats) (n : Nat),
      seqKey t.seq pkt.len ∈ alookupD st.tcpSeqTrack (connKey s t.sport d t.dport) [] →
      (analyzeList st (List.replicate N pkt) n).tcpRetransmissions.length =
        st.tcpRetransmissions.length + N ∧
      alookupD (analyzeList st (List.replicate N pkt) n).tcpSeqTrack
          (connKey s t.sport d t.dport) [] =
        alookupD st.tcpSeqTrack (connKey s t.sport d t.dport) [] := by
  intro N
  induction N with
  | zero =>
    intro st n _
    simp [analyzeList]
  | succ m ih =>
    intro st n hmem
    rw [List.replicate_succ]
    simp only [analyzeList]
    obtain ⟨-, -, r2, r3, -⟩ := analyze_packet_tcp_spec st pkt n s d t hip htcp
    have hc : seqKey t.seq pkt.len ∈
        alookupD st.tcpSeqTrack (connKey s t.sport d t.dport) [] ∧ 60 < pkt.len :=
      ⟨hmem, hlen⟩
    rw [if_pos hc] at r2 r3
    obtain ⟨ihl, iht⟩ := ih (analyze_packet st pkt n) (n + 1) (by rw [r3]; exact hmem)
    constructor
    · rw [ihl, r2]
      simp
      omega
    · rw [iht, r3]

/-- Replaying a pair with frame length ≤ 60: no retransmission event is ever
emitted, and the pair stays (or is put) in the seen-set. -/
theorem replay_small (pkt : Packet) (s d : String) (t : TCPInfo)
    (hip : pkt.ip = some (s, d)) (htcp : pkt.tcp = some t) (hlen : pkt.len ≤ 60) :
    ∀ (N : Nat) (st : Stats) (n : Nat),
      (analyzeList st (List.replicate N pkt) n).tcpRetransmissions.length =
        st.tcpRetransmissions.length ∧
      (0 < N → seqKey t.seq pkt.len ∈
        alookupD (analyzeList st (List.replicate N pkt) n).tcpSeqTrack
          (connKey s t.sport d t.dport) []) := by
  have hstep : ∀ (st : Stats) (n : Nat),
      (analyze_packet st pkt n).tcpRetransmissions = st.tcpRetransmissions ∧
      seqKey t.seq pkt.len ∈
        alookupD (analyze_packet st pkt n).tcpSeqTrack (connKey s t.sport d t.dport) [] := by
    intro st n
    obtain ⟨-, -, r2, r3, -⟩ := analyze_packet_tcp_spec st pkt n s d t hip htcp
    have hc : ¬(seqKey t.seq pkt.len ∈
        alookupD st.tcpSeqTrack (connKey s t.sport d t.dport) [] ∧ 60 < pkt.len) := by
      rintro ⟨-, hgt⟩
      omega
    rw [if_neg hc] at r2 r3
    refine ⟨r2, ?_⟩
    rw [r3, alookupD_aset_self]
    exact mem_sadd_self _ _
  have hkeep : ∀ (st : Stats) (n : Nat),
      seqKey t.seq pkt.len ∈ alookupD st.tcpSeqTrack (connKey s t.sport d t.dport) [] →
      seqKey t.seq pkt.len ∈
        alookupD (analyze_packet st pkt n).tcpSeqTrack (connKey s t.sport d t.dport) [] :=
    fun st n _ => (hstep st n).2
  intro N
  induction N with
  | zero =>
    intro st n
    simp [analyzeList]
  | succ m ih =>
    intro st n
    rw [List.replicate_succ]
    simp only [analyzeList]
    obtain ⟨ihl, ihm⟩ := ih (analyze_packet st pkt n) (n + 1)
    refine ⟨by rw [ihl, (hstep st n).1], fun _ => ?_⟩
    rcases Nat.eq_zero_or_pos m with hm | hm
    · subst hm
      simpa [analyzeList] using (hstep st n).2
    · -- membership persists through the remaining replays
      clear ihl
      have : ∀ (M : Nat) (st2 : Stats) (n2 : Nat),
          seqKey t.seq pkt.len ∈
            alookupD st2.tcpSeqTrack (connKey s t.sport d t.dport) [] →
          seqKey t.seq pkt.len ∈
            alookupD (analyzeList st2 (List.replicate M pkt) n2).tcpSeqTrack
              (connKey s t.sport d t.dport) [] := by
        intro M
        induction M with
        | zero => intro st2 n2 hmm; simpa [analyzeList] using hmm
        | succ mm ihh =>
          intro st2 n2 hmm
          rw [List.replicate_succ]
          simp only [analyzeList]
          exact ihh (analyze_packet st2 pkt n2) (n2 + 1) (hkeep st2 n2 hmm)
      exact this m (analyze_packet st pkt n) (n + 1) (hstep st n).2

/-! ## `total_packets` is only ever touched by `sanitize_packet` itself -/

theorem anonymize_ip_totalPackets (st : SanState) (s : String) :
    (anonymize_ip st s).2.totalPackets = st.totalPackets := by
  unfold anonymize_ip
  rcases h1 : alookup st.ipMap s with _ | v
  · rcases h2 : parseIP s with _ | o <;> simp [h1, h2]
  · simp [h1]

theorem anonymize_mac_totalPackets (st : SanState) (s : String) :
    (anonymize_mac st s).2.totalPackets = st.totalPackets := by
  unfold anonymize_mac
  rcases h1 : alookup st.macMap s with _ | v <;> simp [h1]

theorem anonymize_domain_totalPackets (st : SanState) (s : String) :
    (anonymize_domain st s).2.totalPackets = st.totalPackets := by
  unfold anonymize_domain
  rcases h1 : alookup st.domainMap s with _ | v <;> simp [h1]

theorem sanAnswer_totalPackets (st : SanState) (r : String) :
    (sanAnswer st r).1.totalPackets = st.totalPackets := by
  unfold sanAnswer
  by_cases h1 : r = ""
  · simp [h1]
  · rw [if_neg h1]
    by_cases h2 : rstripDot r = ""
    · simp [h2]
    · rw [if_neg h2]
      split_ifs <;> simp [anonymize_domain_totalPackets]

theorem sanAnswers_totalPackets (l : List String) :
    ∀ st : SanState, (sanAnswers st l).1.totalPackets = st.totalPackets := by
  induction l with
  | nil => intro st; rfl
  | cons r t ih =>
    intro st
    simp only [sanAnswers]
    rw [ih]
    exact sanAnswer_totalPackets st r

theorem sanitize_dns_totalPackets (st : SanState) (pkt : Packet) :
    (sanitize_dns st pkt).1.totalPackets = st.totalPackets := by
  unfold sanitize_dns
  rcases hd : pkt.dns with _ | dns
  · simp
  · rcases hq : dns.qd with _ | q <;>
      simp [hq, sanAnswers_totalPackets, anonymize_domain_totalPackets]

theorem foldl_redactStep_totalPackets (hs : List String) :
    ∀ acc : SanState × String,
      ((hs.foldl redactStep acc).1).totalPackets = acc.1.totalPackets := by
  induction hs with
  | nil => intro acc; rfl
  | cons hhd tl ih =>
    intro acc
    simp only [List.foldl_cons]
    refine (ih _).trans ?_
    unfold redactStep
    split_ifs <;> simp

theorem sanitize_http_totalPackets (st : SanState) (pkt : Packet) :
    (sanitize_http st pkt).1.totalPackets = st.totalPackets := by
  rcases hraw : pkt.raw with _ | payload
  · simp [sanitize_http, hraw]
  · by_cases hc : strContains payload "HTTP/" = true ∨
      strContains payload "GET " = true ∨ strContains payload "POST " = true
    · simp only [sanitize_http, hraw, hc, if_true]
      exact foldl_redactStep_totalPackets sensitiveHeaders (st, payload)
    · simp [sanitize_http, hraw, hc]

theorem sanitize_tls_totalPackets (st : SanState) (pkt : Packet) :
    (sanitize_tls st pkt).1.totalPackets = st.totalPackets := by
  unfold sanitize_tls
  split_ifs <;> simp

theorem sanEther_totalPackets (st : SanState) (pkt : Packet) :
    (sanEther st pkt).1.totalPackets = st.totalPackets := by
  rcases he : pkt.ether with _ | ⟨es, ed⟩
  · simp [sanEther, he]
  · by_cases h1 : es = "00:00:00:00:00:00" <;> by_cases h2 : ed = "00:00:00:00:00:00" <;>
      simp [sanEther, he, h1, h2, anonymize_mac_totalPackets]

theorem sanIp_totalPackets (st : SanState) (pkt : Packet) :
    (sanIp st pkt).1.totalPackets = st.totalPackets := by
  unfold sanIp
  rcases hi : pkt.ip with _ | ⟨s, d⟩ <;> simp [anonymize_ip_totalPackets]

theorem sanIpv6_totalPackets (st : SanState) (pkt : Packet) :
    (sanIpv6 st pkt).1.totalPackets = st.totalPackets := by
  unfold sanIpv6
  rcases hi : pkt.ipv6 with _ | ⟨s, d⟩ <;> simp [anonymize_ip_totalPackets]

theorem sanitizeBody_totalPackets (st : SanState) (pkt : Packet)
    (r : SanState × Packet) (h : sanitizeBody st pkt = .ok r) :
    r.1.totalPackets = st.totalPackets := by
  unfold sanitizeBody at h
  by_cases hflt : pkt.decodeFault = true
  · rw [if_pos hflt] at h
    cases h
  · rw [if_neg hflt] at h
    rcases h1 : sanEther st pkt with ⟨s1, p1⟩
    rcases h2 : sanIp s1 p1 with ⟨s2, p2⟩
    rcases h3 : sanIpv6 s2 p2 with ⟨s3, p3⟩
    rcases h4 : sanitize_dns s3 p3 with ⟨s4, p4⟩
    rcases h5 : sanitize_http s4 p4 with ⟨s5, p5⟩
    rcases h6 : sanitize_tls s5 p5 with ⟨s6, p6⟩
    simp only [h1, h2, h3, h4, h5, h6] at h
    injection h with h7
    subst h7
    have e1 := sanEther_totalPackets st pkt
    have e2 := sanIp_totalPackets s1 p1
    have e3 := sanIpv6_totalPackets s2 p2
    have e4 := sanitize_dns_totalPackets s3 p3
    have e5 := sanitize_http_totalPackets s4 p4
    have e6 := sanitize_tls_totalPackets s5 p5
    rw [h1] at e1
    rw [h2] at e2
    rw [h3] at e3
    rw [h4] at e4
    rw [h5] at e5
    rw [h6] at e6
    simp only at e1 e2 e3 e4 e5 e6 ⊢
    omega

/-- Each `sanitize_packet` call bumps `total_packets` by exactly one,
whether or not the packet's sanitization raises. -/
theorem sanitize_packet_totalPackets (st : SanState) (pkt : Packet) :
    (sanitize_packet st pkt).1.totalPackets = st.totalPackets + 1 := by
  unfold sanitize_packet
  rcases h : sanitizeBody { st with totalPackets := st.totalPackets + 1 } pkt with e | r
  · simp [h]
  · have h2 := sanitizeBody_totalPackets _ _ _ h
    simp only at h2
    simp [h, h2]

/-- The per-packet sanitize loop: the output capture has exactly one record
per input record, and every record is counted. -/
theorem sanitizeAll_spec (l : List Packet) :
    ∀ st : SanState, (sanitizeAll st l).2.length = l.length ∧
      (sanitizeAll st l).1.totalPackets = st.totalPackets + l.length := by
  induction l with
  | nil => intro st; simp [sanitizeAll]
  | cons p t ih =>
    intro st
    simp only [sanitizeAll]
    rcases hp : sanitize_packet st p with ⟨s1, p1⟩
    rcases ht : sanitizeAll s1 t with ⟨s2, t1⟩
    obtain ⟨ihl, iht⟩ := ih s1
    rw [ht] at ihl iht
    have hc := sanitize_packet_totalPackets st p
    rw [hp] at hc
    simp only at ihl iht hc ⊢
    constructor
    · simpa using ihl
    · simp only [iht, hc, List.length_cons]
      omega

/-- `analyze_all` aborts as soon as one packet raises. -/
theorem analyzeAllAux_error (pre : List Packet) (bad : Packet) (post : List Packet)
    (hbad : bad.decodeFault = true) :
    ∀ (st : Stats) (n : Nat), (∀ p ∈ pre, p.decodeFault = false) →
      analyzeAllAux st (pre ++ bad :: post) n = .error () := by
  induction pre with
  | nil =>
    intro st n _
    simp [analyzeAllAux, analyzePacketE, hbad]
  | cons q t ih =>
    intro st n hpre
    have hq : q.decodeFault = false := hpre q (List.mem_cons_self _ _)
    simp only [List.cons_append, analyzeAllAux, analyzePacketE, hq]
    exact ih _ _ (fun p hp => hpre p (List.mem_cons_of_mem _ hp))

/-- On a capture with no raising packet, `analyze_all` runs the pure loop to
completion. -/
theorem analyzeAllAux_ok (l : List Packet) :
    ∀ (st : Stats) (n : Nat), (∀ p ∈ l, p.decodeFault = false) →
      analyzeAllAux st l n = .ok (analyzeList st l n) := by
  induction l with
  | nil => intro st n _; rfl
  | cons q t ih =>
    intro st n hl
    have hq : q.decodeFault = false := hl q (List.mem_cons_self _ _)
    simp only [analyzeAllAux, analyzePacketE, hq, analyzeList]
    exact ih _ _ (fun p hp => hl p (List.mem_cons_of_mem _ hp))

/-! ## A word lemma for conversation-key distinctness -/

theorem takeWhile_append_space (l t : List Char)
    (hl : ∀ c ∈ l, (c != ' ') = true) :
    (l ++ ' ' :: t).takeWhile (fun c => c != ' ') = l := by
  induction l with
  | nil => simp [List.takeWhile_cons]
  | cons a as ih =>
    have ha := hl a (List.mem_cons_self _ _)
    simp only [List.cons_append, List.takeWhile_cons, ha, if_true]
    rw [ih (fun c hc => hl c (List.mem_cons_of_mem _ hc))]

/-- The directional conversation key differs from the key of the reverse
direction whenever the two endpoint strings differ (endpoint strings —
`ip:port` — never contain a space). -/
theorem convKey_swap_ne (epA epB : String)
    (hA : ∀ c ∈ epA.data, (c != ' ') = true) (hB : ∀ c ∈ epB.data, (c != ' ') = true)
    (hne : epA ≠ epB) :
    epA ++ " -> " ++ epB ≠ epB ++ " -> " ++ epA := by
  intro h
  apply hne
  have hd : epA.data ++ ' ' :: '-' :: '>' :: ' ' :: epB.data =
      epB.data ++ ' ' :: '-' :: '>' :: ' ' :: epA.data := by
    have h2 := congrArg String.data h
    simpa [String.data_append] using h2
  have h3 := congrArg (List.takeWhile (fun c => c != ' ')) hd
  rw [takeWhile_append_space _ _ hA, takeWhile_append_space _ _ hB] at h3
  cases epA
  cases epB
  simp only at h3
  rw [h3]

/-! ## Claim theorems -/

/-- A capture record with no decoded layers (used as a fixed concrete input
for the determinism counterexample). -/
def c1Pkt : Packet :=
  ⟨0, 60, none, none, none, none, none, none, none, none, false, false, false⟩

/-- **C1 — counterexample.** With the capture, its name, its size and the
anonymization mode all fixed, two runs whose export-time clock readings
differ produce different `summary.json` contents (`generate_summary` embeds
`datetime.now().isoformat()` as `analysis_timestamp`), so the exported
reports are not a deterministic function of the input alone. -/
theorem c1_reports_depend_on_clock :
    export_analysis (analyzeList { initStats with totalPackets := 1 } [c1Pkt] 1)
        "capture.pcap" 1000 "2025-01-01T00:00:00" ≠
      export_analysis (analyzeList { initStats with totalPackets := 1 } [c1Pkt] 1)
        "capture.pcap" 1000 "2025-01-01T00:00:01" := by
  decide

/-- **C1 — amended.** For a fixed input capture and fixed anonymization
mode, two runs produce identical sanitized captures (and sanitizer state)
and identical `errors_detailed.json` and `conversations.json`; `summary.json`
is identical except for its `analysis_timestamp` metadata field (after
masking that one field the two summaries agree). -/
theorem c1_determinism_modulo_timestamp (pkts : List Packet) (preserve : Bool)
    (f : String) (sz : Nat) (now1 now2 mask : String) :
    sanitizeRun pkts preserve now1 = sanitizeRun pkts preserve now2 ∧
    (prepareRun pkts f sz now1).map ExportedReports.errors =
      (prepareRun pkts f sz now2).map ExportedReports.errors ∧
    (prepareRun pkts f sz now1).map ExportedReports.conversations =
      (prepareRun pkts f sz now2).map ExportedReports.conversations ∧
    (prepareRun pkts f sz now1).map
        (fun r => { r.summary with analysisTimestamp := mask }) =
      (prepareRun pkts f sz now2).map
        (fun r => { r.summary with analysisTimestamp := mask }) := by
  refine ⟨rfl, ?_, ?_, ?_⟩ <;>
  · unfold prepareRun
    rcases h : analyze_all { initStats with totalPackets := pkts.length } pkts with
      e | s <;> simp [export_analysis, generate_summary, Except.map]

/-- **C2 — counterexample.** With preservation enabled, the private address
172.16.0.1 (inside 172.16.0.0/12) is mapped to 172.25.134.59: the first
octet is preserved but the mapped second octet is digest-derived (25 ≠ 16),
so the mapped first two octets do not equal the original's first two
octets. -/
theorem c2_second_octet_not_preserved :
    (anonymize_ip (initSan true) "172.16.0.1").1 = "172.25.134.59" ∧
    (strSplitOn "172.16.0.1" ".").getD 1 "" = "16" ∧
    (strSplitOn "172.25.134.59" ".").getD 1 "" = "25" := by
  refine ⟨by decide, rfl, rfl⟩

/-- **C2 — amended.** With preservation enabled, for an unmapped private
IPv4 address: a 10.x.x.x address maps to a 10.x.x.x address (first octet
preserved); a 172.16–31.x.x address maps to a 172.(16–31).x.x address (first
octet preserved, second octet digest-derived but kept within 16–31 — not
necessarily equal to the original's); a 192.168.x.x address maps to a
192.168.x.x address (first two octets preserved). -/
theorem c2_private_ip_prefixes (st : SanState) (ip s2 s3 s4 : String) (o : IPAddr)
    (hpre : st.preserveInternalIps = true) (hmap : alookup st.ipMap ip = none)
    (hparse : parseIP ip = some o) (hpriv : isPrivate o = true)
    (hv4 : isV4 o = true) :
    (strSplitOn ip "." = ["10", s2, s3, s4] →
      ∃ x y z, x < 256 ∧ y < 256 ∧ z < 256 ∧
        (anonymize_ip st ip).1 =
          "10." ++ toString x ++ "." ++ toString y ++ "." ++ toString z) ∧
    (∀ n2, strSplitOn ip "." = ["172", s2, s3, s4] → strToNatQ s2 = some n2 →
      16 ≤ n2 → n2 ≤ 31 →
      ∃ x y z, 16 ≤ x ∧ x ≤ 31 ∧ y < 256 ∧ z < 256 ∧
        (anonymize_ip st ip).1 =
          "172." ++ toString x ++ "." ++ toString y ++ "." ++ toString z) ∧
    (strSplitOn ip "." = ["192", "168", s3, s4] →
      ∃ y z, y < 256 ∧ z < 256 ∧
        (anonymize_ip st ip).1 = "192.168." ++ toString y ++ "." ++ toString z) := by
  obtain ⟨a, b, c, d, ho⟩ : ∃ a b c d, o = .v4 a b c d := by
    cases o with
    | v4 a b c d => exact ⟨a, b, c, d, rfl⟩
    | v6 g => simp [isV4] at hv4
  subst ho
  refine ⟨?_, ?_, ?_⟩
  · intro hsplit
    refine ⟨hexVal (strSlice (hashValue ip "") 0 2) % 256,
      hexVal (strSlice (hashValue ip "") 2 4) % 256,
      hexVal (strSlice (hashValue ip "") 4 6) % 256,
      Nat.mod_lt _ (by norm_num), Nat.mod_lt _ (by norm_num),
      Nat.mod_lt _ (by norm_num), ?_⟩
    unfold anonymize_ip
    simp [hmap, hparse, hpriv, hpre, hsplit]
  · intro n2 hsplit htn h16 h31
    refine ⟨16 + hexVal (strSlice (hashValue ip "") 0 2) % 16,
      hexVal (strSlice (hashValue ip "") 2 4) % 256,
      hexVal (strSlice (hashValue ip "") 4 6) % 256,
      by omega, by have := Nat.mod_lt (hexVal (strSlice (hashValue ip "") 0 2))
                      (show 0 < 16 by norm_num)
                   omega,
      Nat.mod_lt _ (by norm_num), Nat.mod_lt _ (by norm_num), ?_⟩
    unfold anonymize_ip
    simp [hmap, hparse, hpriv, hpre, hsplit, htn, h16, h31]
  · intro hsplit
    refine ⟨hexVal (strSlice (hashValue ip "") 0 2) % 256,
      hexVal (strSlice (hashValue ip "") 2 4) % 256,
      Nat.mod_lt _ (by norm_num), Nat.mod_lt _ (by norm_num), ?_⟩
    unfold anonymize_ip
    simp [hmap, hparse, hpriv, hpre, hsplit]

/-- Witness for C2's amended claim at the concrete private address
10.0.0.1. -/
theorem c2_private_ip_prefixes_witness :
    ∃ x y z, x < 256 ∧ y < 256 ∧ z < 256 ∧
      (anonymize_ip (initSan true) "10.0.0.1").1 =
        "10." ++ toString x ++ "." ++ toString y ++ "." ++ toString z :=
  (c2_private_ip_prefixes (initSan true) "10.0.0.1" "0" "0" "1"
    (.v4 10 0 0 1) rfl rfl (by decide) (by decide) rfl).1 (by decide)

/-- **C5 — confirmed.** The exported error-detail lists are take-prefixes of
their detection-order streams with the stated caps (50/50/50/50/30/20);
`top_sources` has at most 10 entries and the conversations report at most
20. -/
theorem c5_truncation_bounds (st : Stats) (f : String) (sz : Nat) (now : String) :
    ((generate_error_details st).tcpResets.length ≤ 50 ∧
     (generate_error_details st).tcpRetransmissions.length ≤ 50 ∧
     (generate_error_details st).dnsFailures.length ≤ 50 ∧
     (generate_error_details st).httpErrors.length ≤ 50 ∧
     (generate_error_details st).connectionFailures.length ≤ 30 ∧
     (generate_error_details st).largePackets.length ≤ 20) ∧
    ((generate_error_details st).tcpResets = st.tcpResets.take 50 ∧
     (generate_error_details st).tcpRetransmissions = st.tcpRetransmissions.take 50 ∧
     (generate_error_details st).dnsFailures = st.dnsFailures.take 50 ∧
     (generate_error_details st).httpErrors = st.httpErrors.take 50 ∧
     (generate_error_details st).connectionFailures = st.connectionFailures.take 30 ∧
     (generate_error_details st).largePackets = st.largePackets.take 20) ∧
    ((∃ r, st.tcpResets = (generate_error_details st).tcpResets ++ r) ∧
     (∃ r, st.tcpRetransmissions = (generate_error_details st).tcpRetransmissions ++ r) ∧
     (∃ r, st.dnsFailures = (generate_error_details st).dnsFailures ++ r) ∧
     (∃ r, st.httpErrors = (generate_error_details st).httpErrors ++ r) ∧
     (∃ r, st.connectionFailures = (generate_error_details st).connectionFailures ++ r) ∧
     (∃ r, st.largePackets = (generate_error_details st).largePackets ++ r)) ∧
    (generate_summary st f sz now).topSources.length ≤ 10 ∧
    (generate_conversation_summary st).length ≤ 20 := by
  refine ⟨⟨?_, ?_, ?_, ?_, ?_, ?_⟩, ⟨rfl, rfl, rfl, rfl, rfl, rfl⟩,
    ⟨?_, ?_, ?_, ?_, ?_, ?_⟩, ?_, ?_⟩ <;>
    simp [generate_error_details, generate_summary, generate_conversation_summary,
      mostCommon] <;>
    exact ⟨_, (List.take_append_drop _ _).symm⟩

/-- **C10 — confirmed.** `anonymize_ip` returns an input string that does
not parse as an IP address unchanged: no error, no change to the sanitizer
state, no entry added to the identity map. -/
theorem c10_invalid_ip_passthrough (st : SanState) (ip : String)
    (hmap : alookup st.ipMap ip = none) (hparse : parseIP ip = none) :
    anonymize_ip st ip = (ip, st) := by
  unfold anonymize_ip
  simp [hmap, hparse]

/-- Witness for C10 at the concrete non-address string "not-an-ip". -/
theorem c10_invalid_ip_passthrough_witness :
    anonymize_ip (initSan true) "not-an-ip" = ("not-an-ip", initSan true) :=
  c10_invalid_ip_passthrough (initSan true) "not-an-ip" rfl (by decide)

/-- **C3 — confirmed.** On a connection key whose seen-set does not yet hold
the (seq, frame-length) pair: replaying the identical TCP packet N times
yields exactly N−1 retransmission events when the frame length exceeds 60
bytes, and none at all when it is ≤ 60 bytes; the first packet inserts the
pair into the seen-set. -/
theorem c3_retransmission_replay (st : Stats) (pkt : Packet) (N n : Nat)
    (s d : String) (t : TCPInfo) (hip : pkt.ip = some (s, d))
    (htcp : pkt.tcp = some t)
    (hfresh : alookupD st.tcpSeqTrack (connKey s t.sport d t.dport) [] = []) :
    (60 < pkt.len →
      (analyzeList st (List.replicate N pkt) n).tcpRetransmissions.length =
        st.tcpRetransmissions.length + (N - 1)) ∧
    (pkt.len ≤ 60 →
      (analyzeList st (List.replicate N pkt) n).tcpRetransmissions.length =
        st.tcpRetransmissions.length) ∧
    (0 < N → seqKey t.seq pkt.len ∈
      alookupD (analyzeList st (List.replicate N pkt) n).tcpSeqTrack
        (connKey s t.sport d t.dport) []) := by
  rcases N with _ | m
  · exact ⟨fun _ => by simp [analyzeList], fun _ => by simp [analyzeList],
      fun h => absurd h (by omega)⟩
  · obtain ⟨-, -, r2, r3, -⟩ := analyze_packet_tcp_spec st pkt n s d t hip htcp
    have hc : ¬(seqKey t.seq pkt.len ∈
        alookupD st.tcpSeqTrack (connKey s t.sport d t.dport) [] ∧ 60 < pkt.len) := by
      rw [hfresh]
      rintro ⟨hx, -⟩
      simp at hx
    rw [if_neg hc] at r2 r3
    have hmem1 : seqKey t.seq pkt.len ∈
        alookupD (analyze_packet st pkt n).tcpSeqTrack (connKey s t.sport d t.dport) [] := by
      rw [r3, alookupD_aset_self]
      exact mem_sadd_self _ _
    refine ⟨?_, ?_, ?_⟩
    · intro hlen
      rw [List.replicate_succ]
      simp only [analyzeList]
      obtain ⟨hl, -⟩ :=
        replay_seen pkt s d t hip htcp hlen m (analyze_packet st pkt n) (n + 1) hmem1
      rw [hl, r2]
      simp
    · intro hlen
      rw [List.replicate_succ]
      simp only [analyzeList]
      obtain ⟨hl, -⟩ := replay_small pkt s d t hip htcp hlen m (analyze_packet st pkt n) (n + 1)
      rw [hl, r2]
    · intro _
      rw [List.replicate_succ]
      simp only [analyzeList]
      rcases Nat.eq_zero_or_pos m with hm | hm
      · subst hm
        simpa [analyzeList] using hmem1
      · by_cases hlen : 60 < pkt.len
        · obtain ⟨-, ht⟩ :=
            replay_seen pkt s d t hip htcp hlen m (analyze_packet st pkt n) (n + 1) hmem1
          rw [ht]
          exact hmem1
        · obtain ⟨-, hmm⟩ :=
            replay_small pkt s d t hip htcp (by omega) m (analyze_packet st pkt n) (n + 1)
          exact hmm hm

/-- A 100-byte TCP data packet on one connection, used to witness C3. -/
def c3Pkt : Packet :=
  ⟨0, 100, none, some ("10.0.0.1", "10.0.0.2"), none,
   some ⟨1234, 80, false, true, false, false, false, "A", 1000, 1⟩,
   none, none, none, none, false, false, false⟩

/-- Witness for C3: replaying the identical 100-byte (seq, length) pair 3
times on a fresh connection key yields exactly 2 retransmission events. -/
theorem c3_retransmission_replay_witness :
    alookupD initStats.tcpSeqTrack (connKey "10.0.0.1" 1234 "10.0.0.2" 80) [] = [] ∧
    (analyzeList initStats (List.replicate 3 c3Pkt) 1).tcpRetransmissions.length =
      initStats.tcpRetransmissions.length + (3 - 1) :=
  ⟨rfl, (c3_retransmission_replay initStats c3Pkt 3 1 "10.0.0.1" "10.0.0.2"
    ⟨1234, 80, false, true, false, false, false, "A", 1000, 1⟩ rfl rfl rfl).1
    (by decide)⟩

/-- A TCP RST segment carried over IPv6 only (no IPv4 layer). -/
def c4PktV6 : Packet :=
  ⟨0, 70, none, none, some ("2001:db8::1", "2001:db8::2"),
   some ⟨1234, 80, false, false, false, true, false, "R", 100, 0⟩,
   none, none, none, none, false, false, false⟩

/-- **C4 — counterexample.** A packet whose TCP layer has RST set but whose
network layer is IPv6 (no IPv4 layer) produces no TcpReset event and no
TCP_RESET count: the classifier only inspects TCP under `haslayer(IP)`. -/
theorem c4_ipv6_rst_not_counted :
    (c4PktV6.tcp.map TCPInfo.flagR) = some true ∧
    (analyze_packet initStats c4PktV6 1).tcpResets = [] ∧
    alookupD (analyze_packet initStats c4PktV6 1).errorsByType "TCP_RESET" 0 = 0 := by
  decide

/-- **C4 — amended.** Every packet whose IPv4 layer carries a TCP segment
with the RST flag emits exactly one TcpReset event (appended to
`tcp_resets`) and one TCP_RESET count in `errors_by_type`; a TCP segment on
a packet without an IPv4 layer (e.g. carried over IPv6) emits none. -/
theorem c4_tcp_reset_ipv4_only (st : Stats) (pkt : Packet) (n : Nat)
    (s d : String) (t : TCPInfo) (hip : pkt.ip = some (s, d))
    (htcp : pkt.tcp = some t) (hrst : t.flagR = true) :
    (analyze_packet st pkt n).tcpResets =
      st.tcpResets ++ [⟨n, pkt.time, epStr s t.sport, epStr d t.dport, t.seq, t.ack⟩] ∧
    alookupD (analyze_packet st pkt n).errorsByType "TCP_RESET" 0 =
      alookupD st.errorsByType "TCP_RESET" 0 + 1 ∧
    (∀ pkt6 : Packet, pkt6.ip = none →
      (analyze_packet st pkt6 n).tcpResets = st.tcpResets) := by
  obtain ⟨r1, e1, -, -, -⟩ := analyze_packet_tcp_spec st pkt n s d t hip htcp
  rw [if_pos hrst] at r1 e1
  refine ⟨r1, e1, ?_⟩
  intro pkt6 hip6
  have hnet : (analyzeNet st pkt6 n).tcpResets = st.tcpResets := by
    unfold analyzeNet
    rcases h6 : pkt6.ipv6 with _ | q <;> simp [hip6, h6]
  obtain ⟨d1, -, -, -, -, -, -⟩ := analyzeDns_frame (analyzeNet st pkt6 n) pkt6 n
  obtain ⟨h1, -, -, -, -, -, -⟩ :=
    analyzeHttp_frame (analyzeDns (analyzeNet st pkt6 n) pkt6 n) pkt6 n
  obtain ⟨l1, -, -, -, -, -, -, -⟩ :=
    analyzeLarge_frame (analyzeHttp (analyzeDns (analyzeNet st pkt6 n) pkt6 n) pkt6 n) pkt6 n
  unfold analyze_packet
  rw [l1, h1, d1, hnet]

/-- An IPv4 TCP RST segment used to witness C4's amended claim. -/
def c4Pkt4 : Packet :=
  ⟨0, 70, none, some ("10.0.0.1", "10.0.0.2"), none,
   some ⟨1234, 80, false, false, false, true, false, "R", 100, 0⟩,
   none, none, none, none, false, false, false⟩

/-- Witness for C4's amended claim at a concrete IPv4 RST packet. -/
theorem c4_tcp_reset_ipv4_only_witness :
    (analyze_packet initStats c4Pkt4 1).tcpResets =
      initStats.tcpResets ++
        [⟨1, c4Pkt4.time, epStr "10.0.0.1" 1234, epStr "10.0.0.2" 80, 100, 0⟩] :=
  (c4_tcp_reset_ipv4_only initStats c4Pkt4 1 "10.0.0.1" "10.0.0.2"
    ⟨1234, 80, false, false, false, true, false, "R", 100, 0⟩ rfl rfl rfl).1

/-- **C6 — confirmed.** Conversation tracking is directional: the key of
`A:pa → B:pb` differs from the key of `B:pb → A:pa` whenever the two
endpoint strings differ (endpoint strings contain no space); processing a
packet touches no conversation entry other than the packet's own key, and
bumps exactly that entry's packet counter — so the two directions of a
duplex flow live in two distinct entries that are never merged. -/
theorem c6_conversation_directionality (A B : String) (pa pb : Nat)
    (st : Stats) (pkt : Packet) (n : Nat) (k : String)
    (sA dA : String) (tA : TCPInfo)
    (hA : ∀ c ∈ (epStr A pa).data, (c != ' ') = true)
    (hB : ∀ c ∈ (epStr B pb).data, (c != ' ') = true)
    (hne : epStr A pa ≠ epStr B pb)
    (hk : convKeyOf pkt ≠ some k)
    (hip : pkt.ip = some (sA, dA)) (htcp : pkt.tcp = some tA) :
    convKey A pa B pb ≠ convKey B pb A pa ∧
    alookup (analyze_packet st pkt n).conversations k = alookup st.conversations k ∧
    (alookupD (analyze_packet st pkt n).conversations
        (convKey sA tA.sport dA tA.dport) convDefault).packets =
      (alookupD st.conversations (convKey sA tA.sport dA tA.dport) convDefault).packets
        + 1 := by
  refine ⟨?_, analyze_packet_conv_frame st pkt n k hk, ?_⟩
  · show epStr A pa ++ " -> " ++ epStr B pb ≠ epStr B pb ++ " -> " ++ epStr A pa
    exact convKey_swap_ne _ _ hA hB hne
  · obtain ⟨-, -, -, -, c1⟩ := analyze_packet_tcp_spec st pkt n sA dA tA hip htcp
    rw [c1, alookupD_aset_self]

/-- The forward-direction TCP packet `10.0.0.1:1234 → 10.0.0.2:80` used to
witness C6. -/
def c6Pkt : Packet :=
  ⟨0, 80, none, some ("10.0.0.1", "10.0.0.2"), none,
   some ⟨1234, 80, false, true, false, false, false, "A", 5, 6⟩,
   none, none, none, none, false, false, false⟩

/-- Witness for C6: concrete forward and reverse endpoints; the reverse
direction's entry is untouched while the packet's own entry is bumped. -/
theorem c6_conversation_directionality_witness :
    convKey "10.0.0.1" 1234 "10.0.0.2" 80 ≠ convKey "10.0.0.2" 80 "10.0.0.1" 1234 ∧
    alookup (analyze_packet initStats c6Pkt 1).conversations
        (convKey "10.0.0.2" 80 "10.0.0.1" 1234) =
      alookup initStats.conversations (convKey "10.0.0.2" 80 "10.0.0.1" 1234) ∧
    (alookupD (analyze_packet initStats c6Pkt 1).conversations
        (convKey "10.0.0.1" 1234 "10.0.0.2" 80) convDefault).packets =
      (alookupD initStats.conversations
        (convKey "10.0.0.1" 1234 "10.0.0.2" 80) convDefault).packets + 1 :=
  c6_conversation_directionality "10.0.0.1" "10.0.0.2" 1234 80 initStats c6Pkt 1
    (convKey "10.0.0.2" 80 "10.0.0.1" 1234) "10.0.0.1" "10.0.0.2"
    ⟨1234, 80, false, true, false, false, false, "A", 5, 6⟩
    (by decide) (by decide) (by decide) (by decide) rfl rfl

/-- **C7 — confirmed.** A DNS response (`qr ≠ 0`) with non-zero response
code emits exactly one DnsFailure whose `rcode_name` comes from the fixed
table for codes 0–5 and reads `UNKNOWN(code)` for any other code; a response
with code 0 emits none. -/
theorem c7_dns_failure_rcode (st : Stats) (pkt : Packet) (n : Nat) (dns : DNSInfo)
    (hdns : pkt.dns = some dns) (hresp : dns.qr ≠ 0) :
    (dns.rcode ≠ 0 → (analyze_packet st pkt n).dnsFailures =
      st.dnsFailures ++
        [⟨n, pkt.time, (match dns.qd with | some q => rstripDot q | none => "unknown"),
          dns.rcode, dnsRcodeName dns.rcode⟩]) ∧
    (dns.rcode = 0 → (analyze_packet st pkt n).dnsFailures = st.dnsFailures) ∧
    (dnsRcodeName 0 = "NOERROR" ∧ dnsRcodeName 1 = "FORMERR" ∧
     dnsRcodeName 2 = "SERVFAIL" ∧ dnsRcodeName 3 = "NXDOMAIN" ∧
     dnsRcodeName 4 = "NOTIMP" ∧ dnsRcodeName 5 = "REFUSED") ∧
    (∀ r, 5 < r → dnsRcodeName r = "UNKNOWN(" ++ toString r ++ ")") := by
  obtain ⟨s1, s2⟩ := analyze_packet_dns_spec st pkt n dns hdns hresp
  refine ⟨s1, s2, ⟨rfl, rfl, rfl, rfl, rfl, rfl⟩, ?_⟩
  intro r hr
  unfold dnsRcodeName
  rw [if_neg (by omega), if_neg (by omega), if_neg (by omega), if_neg (by omega),
    if_neg (by omega), if_neg (by omega)]

/-- An NXDOMAIN response packet used to witness C7. -/
def c7Pkt : Packet :=
  ⟨0, 90, none, some ("10.0.0.1", "10.0.0.53"), none, none,
   some ⟨53, 3456⟩, none, some ⟨1, some "internal.example.com.", 3, []⟩,
   none, false, false, false⟩

/-- Witness for C7: a response with rcode 3 yields one DnsFailure named
NXDOMAIN. -/
theorem c7_dns_failure_rcode_witness :
    (analyze_packet initStats c7Pkt 1).dnsFailures =
      initStats.dnsFailures ++
        [⟨1, c7Pkt.time, "internal.example.com", 3, dnsRcodeName 3⟩] ∧
    dnsRcodeName 3 = "NXDOMAIN" := by
  have h := c7_dns_failure_rcode initStats c7Pkt 1
    ⟨1, some "internal.example.com.", 3, []⟩ rfl (by decide)
  refine ⟨?_, rfl⟩
  have h1 := h.1 (by decide)
  simpa using h1

/-- Fixed concrete sanitize/analyze inputs for C8: two benign records around
one whose layer decoding raises. -/
def c8Good : Packet :=
  ⟨0, 60, none, none, none, none, none, none, none, none, false, false, false⟩

def c8Bad : Packet :=
  ⟨0, 60, none, none, none, none, none, none, none, none, false, false, true⟩

/-- **C8 — counterexample.** A raising packet is contained in the sanitize
stage (all three records processed and counted) but aborts the classify
stage: `analyze_all` has no per-packet exception handling, so the run errors
out and the remaining capture is not analyzed. -/
theorem c8_classify_stage_aborts :
    (sanitizeAll (initSan true) [c8Good, c8Bad, c8Good]).1.totalPackets = 3 ∧
    (sanitizeAll (initSan true) [c8Good, c8Bad, c8Good]).2.length = 3 ∧
    analyze_all initStats [c8Good, c8Bad, c8Good] = .error () := by
  refine ⟨by decide, by decide, ?_⟩
  rfl

/-- **C8 — amended.** Per-packet failure scoping holds in the sanitize stage
(`sanitize_packet` catches per packet: every record of any capture is
processed and counted, raising or not); in the classify stage a raising
packet aborts the whole `analyze_all` loop, while a capture with no raising
packet is analyzed to completion. -/
theorem c8_fault_isolation (st : SanState) (l : List Packet) (sa : Stats)
    (pre post : List Packet) (bad : Packet) (n : Nat)
    (hbad : bad.decodeFault = true) (hpre : ∀ p ∈ pre, p.decodeFault = false) :
    (sanitizeAll st l).2.length = l.length ∧
    (sanitizeAll st l).1.totalPackets = st.totalPackets + l.length ∧
    analyzeAllAux sa (pre ++ bad :: post) n = .error () ∧
    (∀ pkts : List Packet, (∀ p ∈ pkts, p.decodeFault = false) →
      ∀ (m : Nat) (sb : Stats), analyzeAllAux sb pkts m = .ok (analyzeList sb pkts m)) := by
  obtain ⟨w1, w2⟩ := sanitizeAll_spec l st
  exact ⟨w1, w2, analyzeAllAux_error pre bad post hbad sa n hpre,
    fun pkts hp m sb => analyzeAllAux_ok pkts sb m hp⟩

/-- Witness for C8's amended claim at concrete captures. -/
theorem c8_fault_isolation_witness :
    (sanitizeAll (initSan true) [c8Bad, c8Bad]).2.length = 2 ∧
    analyzeAllAux initStats ([c8Good] ++ c8Bad :: [c8Good]) 1 = .error () :=
  ⟨(c8_fault_isolation (initSan true) [c8Bad, c8Bad] initStats [c8Good] [c8Good]
      c8Bad 1 (by decide) (by decide)).1,
   (c8_fault_isolation (initSan true) [c8Bad, c8Bad] initStats [c8Good] [c8Good]
      c8Bad 1 (by decide) (by decide)).2.2.1⟩

/-- A payload that contains `HTTP/1.1 503` but also matches the
earlier-listed code 400. -/
def c9Payload : String := "HTTP/1.1 400 Bad Request HTTP/1.1 503 Service Unavailable"

def c9Pkt : Packet :=
  ⟨0, 120, none, some ("10.0.0.2", "10.0.0.1"), none,
   some ⟨80, 1234, false, true, false, false, true, "PA", 1, 1⟩,
   none, none, none, some c9Payload, false, false, false⟩

/-- **C9 — counterexample.** A packet whose payload contains the substring
`HTTP/1.1 503` can emit an HttpError whose status_code is "400", not "503":
the scan takes the first matching code of the fixed list and breaks. -/
theorem c9_first_listed_code_wins :
    strContains c9Payload "HTTP/1.1 503" = true ∧
    ((analyze_packet initStats c9Pkt 1).httpErrors.map HttpErrEv.statusCode) =
      ["400"] := by
  decide

/-- **C9 — amended.** When the payload contains `HTTP/` and the fixed code
scan finds a first matching code, exactly one HttpError is emitted whose
status_code is that first matching code — equal to the contained code
whenever exactly one listed code pattern occurs (in particular a payload
whose only listed pattern is `HTTP/1.1 503` yields status_code "503") — and
whose preview is the at-most-200-character prefix of the payload. -/
theorem c9_http_error_first_match (st : Stats) (pkt : Packet) (n : Nat)
    (payload c : String) (hraw : pkt.raw = some payload)
    (hhttp : strContains payload "HTTP/" = true)
    (hfind : findHttpError payload errorCodes = some c) :
    (∃ sA dA, (analyze_packet st pkt n).httpErrors =
      st.httpErrors ++ [⟨n, pkt.time, sA, dA, c, strTake payload 200⟩]) ∧
    (strTake payload 200).length ≤ 200 ∧
    (∃ rest, payload.data = (strTake payload 200).data ++ rest) ∧
    (∀ c2 ∈ errorCodes, httpCodeMatch payload c2 = true →
      (∀ c1 ∈ errorCodes, httpCodeMatch payload c1 = true → c1 = c2) → c = c2) := by
  refine ⟨analyze_packet_http_spec st pkt n payload c hraw hhttp hfind, ?_, ?_, ?_⟩
  · show (payload.data.take 200).length ≤ 200
    simp [List.length_take]
  · exact ⟨payload.data.drop 200, (List.take_append_drop _ _).symm⟩
  · intro c2 hc2 hm2 huniq
    obtain ⟨hcm, hcmm⟩ := findHttpError_mem payload errorCodes c hfind
    exact huniq c hcm hcmm

/-- A payload whose only listed pattern is the 503 status line. -/
def c9Payload503 : String := "HTTP/1.1 503 Service Unavailable"

def c9Pkt503 : Packet :=
  ⟨0, 120, none, some ("10.0.0.2", "10.0.0.1"), none,
   some ⟨80, 1234, false, true, false, false, true, "PA", 1, 1⟩,
   none, none, none, some c9Payload503, false, false, false⟩

/-- Witness for C9's amended claim: the 503-only payload yields one event
with status_code "503" and bounded preview. -/
theorem c9_http_error_first_match_witness :
    (∃ sA dA, (analyze_packet initStats c9Pkt503 1).httpErrors =
      initStats.httpErrors ++ [⟨1, c9Pkt503.time, sA, dA, "503",
        strTake c9Payload503 200⟩]) ∧
    (strTake c9Payload503 200).length ≤ 200 :=
  ⟨(c9_http_error_first_match initStats c9Pkt503 1 c9Payload503 "503" rfl
      (by decide) (by decide)).1,
   (c9_http_error_first_match initStats c9Pkt503 1 c9Payload503 "503" rfl
      (by decide) (by decide)).2.1⟩

end PcapAI
